import Mathlib

/-!
Verification of the DMX Monitor core against its specification.

The definitions below are a shallow embedding of the TypeScript sources:

* `src/protocols/artnet.ts` - Art-Net datagram validation/parsing and the
  ArtPoll encoder (`validateHeader`, `handleMessage`, `parseDMXPacket`,
  `sendArtPoll`);
* `src/transmitter.ts` - the Art-Net DMX packet encoder
  (`ArtNetTransmitter.send`);
* `src/protocols/sacn.ts` - the sACN source arbitration
  (`updateSourceTracking`, `cleanupStaleSources`);
* `src/recorder.ts` - the recording codec (`encodeVarint`, `decodeVarint`,
  `DMXRecorder.recordFrame`, `startRecording`, `stopRecording`,
  `createHeader`) and the playback engine (`readNextFrame`,
  `buildFrameIndex`, `seek`, `seekBackward`, `scheduleNextFrame`).

Byte buffers are modelled as `List Nat` whose entries are octets (< 256).
Node `Buffer.readUIntNN` throws when reading past the end of a buffer; the
total models below return a default instead - every use in the embedded
code paths is guarded by a length check, exactly as in the source.
JavaScript numbers are modelled as `Nat` (and `Int` where the source can
produce negative values); this is exact for the integer ranges the code
manipulates (durations, counts, channel values, priorities below 2^31).
Recursion that the source expresses as unbounded loops is modelled with a
fuel parameter that is always instantiated large enough to be irrelevant
(fuel-independence is proved where needed), keeping all definitions
executable by kernel reduction.
-/

/-! ### Byte-buffer helpers (Node Buffer read/write primitives) -/

/-- Buffer.readUInt16LE: little-endian 16-bit read at an offset. -/
def readUInt16LE (msg : List Nat) (off : Nat) : Nat :=
  msg.getD off 0 + 256 * msg.getD (off + 1) 0

/-- Buffer.readUInt16BE: big-endian 16-bit read at an offset. -/
def readUInt16BE (msg : List Nat) (off : Nat) : Nat :=
  256 * msg.getD off 0 + msg.getD (off + 1) 0

/-- Buffer.readUInt32LE: little-endian 32-bit read at an offset. -/
def readUInt32LE (msg : List Nat) (off : Nat) : Nat :=
  msg.getD off 0 + 256 * msg.getD (off + 1) 0 +
    65536 * msg.getD (off + 2) 0 + 16777216 * msg.getD (off + 3) 0

/-- Bytes produced by Buffer.writeUInt16LE (value below 2^16). -/
def u16le (v : Nat) : List Nat := [v % 256, v / 256 % 256]

/-- Bytes produced by Buffer.writeUInt16BE (value below 2^16). -/
def u16be (v : Nat) : List Nat := [v / 256 % 256, v % 256]

/-- Bytes produced by Buffer.writeUInt32LE (value below 2^32). -/
def u32le (v : Nat) : List Nat :=
  [v % 256, v / 256 % 256, v / 65536 % 256, v / 16777216 % 256]

/-- Bytes produced by Buffer.writeBigInt64LE for a nonnegative value. -/
def u64le (v : Nat) : List Nat :=
  [v % 256, v / 256 % 256, v / 65536 % 256, v / 16777216 % 256,
   v / 4294967296 % 256, v / 1099511627776 % 256,
   v / 281474976710656 % 256, v / 72057594037927936 % 256]

/-! ### Art-Net model (src/protocols/artnet.ts, src/transmitter.ts) -/

/-- The 8-byte ASCII header "Art-Net\x00" (ARTNET_HEADER). -/
def ARTNET_HEADER : List Nat := [65, 114, 116, 45, 78, 101, 116, 0]

/-- TOTAL_CHANNELS from src/types.ts (32 * 16 = 512). -/
def TOTAL_CHANNELS : Nat := 512

/-- isValidUniverse from src/types.ts: a number in [0, 63999].
Nonnegativity and integrality are inherent to `Nat`. -/
def isValidUniverse (u : Nat) : Bool := u ≤ 63999

/-- DMXPacket from src/types.ts.  Only the fields the claims mention are
kept: `univ` (the universe number; Lean reserves the word universe), the
512-entry `channels` array, and `sequence`.  The
`source`, `priority` and `timestamp` metadata fields are network-context
values irrelevant to every claim. -/
structure DMXPacket where
  univ : Nat
  channels : List Nat
  sequence : Nat
  deriving Repr, DecidableEq

/-- ArtNetHandler.validateHeader: the first 8 bytes must equal
ARTNET_HEADER byte for byte.  An out-of-range index yields `undefined` in
JavaScript, which never equals a header byte; default 256 models that. -/
def validateHeader (msg : List Nat) : Bool :=
  (List.range 8).all fun i => msg.getD i 256 == ARTNET_HEADER.getD i 0

/-- ArtNetHandler.parseDMXPacket: decode an OpDmx datagram.  Returns
`none` where the source logs and drops the packet (version below 14,
invalid universe, bad data length, truncated datagram).  The source also
updates its discovered-universe table here; that bookkeeping is not
observable by any claim and is omitted. -/
def parseDMXPacket (msg : List Nat) : Option DMXPacket :=
  let protocolVersion := readUInt16BE msg 10
  if protocolVersion < 14 then none
  else
    let sequence := msg.getD 12 0
    let univ := readUInt16LE msg 14
    if ¬ isValidUniverse univ then none
    else
      let dataLength := readUInt16BE msg 16
      if dataLength < 2 ∨ 512 < dataLength then none
      else if msg.length < 18 + dataLength then none
      else
        let channels := (List.range TOTAL_CHANNELS).map fun i =>
          if i < min dataLength TOTAL_CHANNELS then msg.getD (18 + i) 0 else 0
        some ⟨univ, channels, sequence⟩

/-- Outcome of ArtNetHandler.handleMessage for one datagram. -/
inductive ArtNetEvent where
  | tooShort
  | badHeader
  | dmx (p : DMXPacket)
  | dmxDropped
  | pollReply
  | unhandled (op : Nat)
  deriving Repr, DecidableEq

/-- ArtNetHandler.handleMessage: length check, header check, then opcode
dispatch (0x5000 = OpDmx, 0x2100 = OpPollReply, anything else is logged
and ignored). -/
def handleMessage (msg : List Nat) : ArtNetEvent :=
  if msg.length < 18 then .tooShort
  else if ¬ validateHeader msg then .badHeader
  else
    let opCode := readUInt16LE msg 8
    if opCode = 0x5000 then
      match parseDMXPacket msg with
      | some p => .dmx p
      | none => .dmxDropped
    else if opCode = 0x2100 then .pollReply
    else .unhandled opCode

/-- The DMXPacket a handleMessage outcome emits downstream, if any. -/
def emittedPacket : ArtNetEvent → Option DMXPacket
  | .dmx p => some p
  | _ => none

/-- ArtNetHandler.sendArtPoll: the 14-byte ArtPoll datagram (header,
opcode 0x2000 little-endian, protocol version hi/lo 0/14, TalkToMe 0,
priority 0). -/
def artPollPacket : List Nat :=
  ARTNET_HEADER ++ [0x00, 0x20] ++ [0, 14] ++ [0x00] ++ [0x00]

/-- ArtNetTransmitter.send from src/transmitter.ts: build an OpDmx
datagram for a channel array.  Channel bytes are stored through a
Uint8-typed buffer, hence the modulo 256. -/
def artNetTransmitterSend (univ sequence : Nat) (channels : List Nat) : List Nat :=
  let dataLength := min channels.length TOTAL_CHANNELS
  ARTNET_HEADER ++ u16le 0x5000 ++ u16be 14 ++ [sequence % 256, 0] ++
    u16le univ ++ u16be dataLength ++
    (channels.take dataLength).map (· % 256)

/-! ### sACN source arbitration model (src/protocols/sacn.ts)

The handler keeps a JavaScript `Map` from source key to `SACNSourceInfo`.
A `Map` iterates in insertion order and `Map.set` on an existing key keeps
the entry at its original position, so the table is modelled as an
association list in insertion order. -/

/-- SACNSourceInfo from src/types.ts.  The `sourceName`/`sourceAddress`
display fields are never read by the arbitration logic and are omitted. -/
structure SACNSourceInfo where
  priority : Nat
  lastSeen : Nat
  isActive : Bool
  deriving Repr, DecidableEq

/-- The arbitration state of SACNHandler: the source table in insertion
order plus the cached active-source key. -/
structure SACNState where
  sources : List (String × SACNSourceInfo)
  activeSource : Option String
  deriving Repr, DecidableEq

/-- JavaScript Map.set: replace in place if the key exists (keeping its
position), otherwise append. -/
def mapSet (l : List (String × SACNSourceInfo)) (k : String) (v : SACNSourceInfo) :
    List (String × SACNSourceInfo) :=
  if l.any (fun e => e.1 = k) then l.map (fun e => if e.1 = k then (k, v) else e)
  else l ++ [(k, v)]

/-- The highest-priority scan shared by updateSourceTracking and
cleanupStaleSources: fold over the table with
highestPriority = -1 / highestPrioritySource = null as the start,
replacing on a strictly greater priority. -/
def findHighest : Int → Option String → List (String × SACNSourceInfo) → Int × Option String
  | hp, hk, [] => (hp, hk)
  | hp, hk, (k, info) :: rest =>
    if hp < (info.priority : Int) then findHighest info.priority (some k) rest
    else findHighest hp hk rest

/-- SACNHandler.updateSourceTracking: upsert the sending source with its
current priority and lastSeen, recompute the highest-priority source over
the whole table, flag exactly the winner `isActive`, cache it as
`activeSource`, and report whether the sending source is the winner (the
caller emits the DMXPacket exactly when this is true).  The
sourcesChanged notification has no state effect and is omitted. -/
def updateSourceTracking (st : SACNState) (sourceKey : String) (priority now : Nat) :
    SACNState × Bool :=
  let sources := mapSet st.sources sourceKey ⟨priority, now, false⟩
  let hk := (findHighest (-1) none sources).2
  let sources := sources.map fun e => (e.1, { e.2 with isActive := hk == some e.1 })
  (⟨sources, hk⟩, hk == some sourceKey)

/-- SACNHandler.cleanupStaleSources: drop every source not seen within
5000 ms; if anything was dropped, recompute the active source from the
remaining table (or clear it when the table became empty). -/
def cleanupStaleSources (st : SACNState) (now : Nat) : SACNState :=
  let kept := st.sources.filter fun e => ¬ (5000 < now - e.2.lastSeen)
  if kept.length = st.sources.length then st
  else if kept.isEmpty then ⟨[], none⟩
  else
    let hk := (findHighest (-1) none kept).2
    ⟨kept.map fun e => (e.1, { e.2 with isActive := hk == some e.1 }), hk⟩

/-! ### Recording codec model (src/recorder.ts, DMXRecorder) -/

/-- encodeVarint from src/recorder.ts: 7 bits per byte, low-order first,
continuation bit 0x80 on every byte except the last.  The source loop is
`while (value > 0x7F) push((value & 0x7F) | 0x80); value >>>= 7` followed
by `push(value & 0x7F)`; the fuel argument (instantiated with the value
itself, which bounds the iteration count) keeps the recursion
structural. -/
def encodeVarintAux : Nat → Nat → List Nat
  | 0, v => [v % 128]
  | fuel + 1, v => if 127 < v then (v % 128 + 128) :: encodeVarintAux fuel (v / 128) else [v]

/-- encodeVarint with enough fuel for any value. -/
def encodeVarint (v : Nat) : List Nat := encodeVarintAux v v

/-- decodeVarint from src/recorder.ts, reading from the start of a byte
list and returning the value and the number of bytes consumed.  The
`shift` argument carries the accumulated shift (the source ors
`(byte & 0x7F) << shift` into the value). -/
def decodeVarintAux : List Nat → Nat → Nat × Nat
  | [], _ => (0, 0)
  | b :: bs, shift =>
    if b < 128 then (b % 128 * 2 ^ shift, 1)
    else
      let r := decodeVarintAux bs (shift + 7)
      (b % 128 * 2 ^ shift + r.1, r.2 + 1)

/-- decodeVarint at the start of a buffer. -/
def decodeVarint (bytes : List Nat) : Nat × Nat := decodeVarintAux bytes 0

/-- FrameType.SNAPSHOT marker byte from src/types.ts. -/
def SNAPSHOT_MARKER : Nat := 0xfe

/-- FrameType.EXTENDED marker byte from src/types.ts. -/
def EXTENDED_MARKER : Nat := 0xff

/-- DMXRecorder.writeSnapshotFrame: varint delta time, the 0xFE marker,
then all 512 raw channel bytes (`channels.slice(0, TOTAL_CHANNELS)`). -/
def encodeSnapshotFrame (channels : List Nat) (deltaTime : Nat) : List Nat :=
  encodeVarint deltaTime ++ SNAPSHOT_MARKER :: channels.take TOTAL_CHANNELS

/-- DMXRecorder.writeDeltaFrame: varint delta time, a raw count byte when
the change count is below the snapshot marker (254), otherwise the 0xFF
marker followed by a little-endian u16 count, then for each change a
little-endian u16 channel index and the raw value byte. -/
def encodeDeltaFrame (changes : List (Nat × Nat)) (deltaTime : Nat) : List Nat :=
  encodeVarint deltaTime ++
    (if changes.length < SNAPSHOT_MARKER then [changes.length]
     else EXTENDED_MARKER :: u16le changes.length) ++
    (changes.map fun c => u16le c.1 ++ [c.2]).flatten

/-- The change-set computation inside DMXRecorder.recordFrame: the list
of `(channel, newValue)` pairs, in ascending channel order, where the new
channel array differs from the previous-channel cache. -/
def diffChanges (prev channels : List Nat) : List (Nat × Nat) :=
  (List.range TOTAL_CHANNELS).filterMap fun i =>
    let newValue := channels.getD i 0
    let oldValue := prev.getD i 0
    if newValue ≠ oldValue then some (i, newValue) else none

/-- The mutable fields of DMXRecorder that the recording logic reads and
writes: the recording flag, the previous-channel cache, and the
start / last-frame / last-snapshot timestamps and frame counter, plus the
protocol and universe captured for the header. -/
structure RecorderState where
  recording : Bool
  prev : List Nat
  startTime : Nat
  lastFrame : Nat
  lastSnap : Nat
  count : Nat
  protocol : Nat
  univ : Nat
  deriving Repr, DecidableEq

/-- A freshly constructed DMXRecorder. -/
def initialRecorder : RecorderState :=
  ⟨false, List.replicate TOTAL_CHANNELS 0, 0, 0, 0, 0, 0, 1⟩

/-- DMXRecorder.recordFrame: no-op unless recording; the first frame and
any frame 5000 ms or more past the last snapshot is written as a full
snapshot (with delta time 0 on the first frame); otherwise the change set
against the previous-channel cache is computed and, when non-empty, a
delta frame is written; an empty change set writes nothing and leaves the
cache, timestamps and frame count untouched.  Returns the updated state
and the bytes appended to the stream. -/
def recordFrame (st : RecorderState) (now : Nat) (channels : List Nat) :
    RecorderState × List Nat :=
  if st.recording = false then (st, [])
  else
    let isFirstFrame := st.count = 0
    let deltaTime := if isFirstFrame then 0 else now - st.lastFrame
    if isFirstFrame ∨ 5000 ≤ now - st.lastSnap then
      ({ st with prev := channels, lastFrame := now, lastSnap := now, count := st.count + 1 },
       encodeSnapshotFrame channels deltaTime)
    else
      let changes := diffChanges st.prev channels
      if changes.isEmpty then (st, [])
      else
        ({ st with prev := channels, lastFrame := now, count := st.count + 1 },
         encodeDeltaFrame changes deltaTime)

/-- Run recordFrame over a timed sequence of channel arrays, collecting
the per-call byte chunks (an empty chunk marks a skipped frame). -/
def recordTrace (st : RecorderState) : List (Nat × List Nat) → RecorderState × List (List Nat)
  | [] => (st, [])
  | (t, c) :: rest =>
    let s := recordFrame st t c
    let r := recordTrace s.1 rest
    (r.1, s.2 :: r.2)

/-- The recorder state seen by each input of a trace (element i is the
state just before input i is recorded). -/
def recStates (st : RecorderState) : List (Nat × List Nat) → List RecorderState
  | [] => []
  | (t, c) :: rest => st :: recStates (recordFrame st t c).1 rest

/-- DMXRecorder.createHeader: the 32-byte header - magic "DMXR", version
1, flags HAS_SNAPSHOTS, protocol byte, u16le universe, 8-byte start
timestamp, u32le duration, u32le frame count, 7 reserved zero bytes. -/
def createHeader (st : RecorderState) (duration : Nat) : List Nat :=
  [68, 77, 88, 82] ++ [1] ++ [1] ++ [st.protocol] ++ u16le st.univ ++
    u64le st.startTime ++ u32le duration ++ u32le st.count ++ List.replicate 7 0

/-- DMXRecorder.startRecording: capture protocol and universe, write the
provisional header (duration 0) at file offset 0, then reset the
previous-channel cache, timestamps and frame counter.  Note the header is
built before the reset, so it carries the pre-reset frame counter and
start time.  Returns the new state and the header bytes written.  The
source throws when already recording; the model leaves the state
unchanged in that case (the claim theorems only invoke it when idle). -/
def startRecording (st : RecorderState) (protocol univ now : Nat) :
    RecorderState × List Nat :=
  if st.recording then (st, [])
  else
    let stA := { st with protocol := protocol, univ := univ }
    let header := createHeader stA 0
    let stB := { stA with recording := true, prev := List.replicate TOTAL_CHANNELS 0 }
    let stC := { stB with startTime := now, lastFrame := now, lastSnap := now, count := 0 }
    (stC, header)

/-- DMXRecorder.stopRecording: compute the final duration and rewrite the
header in place at file offset 0 with the measured duration and actual
frame count, then return to idle.  Returns the new state and the final
header bytes. -/
def stopRecording (st : RecorderState) (now : Nat) : RecorderState × List Nat :=
  if st.recording = false then (st, [])
  else
    let duration := now - st.startTime
    let header := createHeader st duration
    ({ st with recording := false }, header)

/-- One full recording run: start, record each input, stop.  Returns the
final state, the list of header writes as (file offset, bytes) pairs, and
the per-frame byte chunks appended after the header. -/
def runRecording (st : RecorderState) (protocol univ t0 : Nat)
    (inputs : List (Nat × List Nat)) (t1 : Nat) :
    RecorderState × List (Nat × List Nat) × List (List Nat) :=
  let s := startRecording st protocol univ t0
  let r := recordTrace s.1 inputs
  let f := stopRecording r.1 t1
  (f.1, [(0, s.2), (0, f.2)], r.2)

/-! ### Playback engine model (src/recorder.ts, DMXPlayer) -/

/-- RecordingFrame as produced by DMXPlayer.readNextFrame: the delta
time, the change list (empty for snapshots), the snapshot flag, and the
snapshot bytes (empty for delta frames, where the source leaves the
optional field unset). -/
structure RecFrame where
  deltaTime : Nat
  changes : List (Nat × Nat)
  isSnapshot : Bool
  snapshotData : List Nat
  deriving Repr, DecidableEq

/-- The change-reading loop of readNextFrame: read `n` changes of three
bytes each (little-endian u16 channel, value byte).  The source throws
out of readUInt16LE when fewer than two bytes remain and silently skips a
change whose value byte is past the end; both abort playback of the
stream and are modelled as `none` (they never occur on streams written by
the recorder). -/
def readPairs : Nat → List Nat → Option (List (Nat × Nat) × List Nat)
  | 0, bs => some ([], bs)
  | n + 1, c1 :: c2 :: v :: bs =>
    match readPairs n bs with
    | some (ps, r) => some ((c1 + 256 * c2, v) :: ps, r)
    | none => none
  | _ + 1, _ => none

/-- DMXPlayer.readNextFrame: `none` at the end of the stream, otherwise
the decoded frame and the remaining bytes.  Snapshot marker 0xFE yields a
512-byte snapshot (`subarray` clamps at the end of the buffer, as does
`take`); marker 0xFF reads an extended little-endian u16 change count;
any other count byte is the raw change count. -/
def readFrame (bytes : List Nat) : Option (RecFrame × List Nat) :=
  if bytes.isEmpty then none
  else
    let d := decodeVarint bytes
    match bytes.drop d.2 with
    | [] => none
    | changeCount :: rest =>
      if changeCount = SNAPSHOT_MARKER then
        some (⟨d.1, [], true, rest.take TOTAL_CHANNELS⟩, rest.drop TOTAL_CHANNELS)
      else if changeCount = EXTENDED_MARKER then
        match rest with
        | lo :: hi :: rest2 =>
          match readPairs (lo + 256 * hi) rest2 with
          | some (ps, r) => some (⟨d.1, ps, false, []⟩, r)
          | none => none
        | _ => none
      else
        match readPairs changeCount rest with
        | some (ps, r) => some (⟨d.1, ps, false, []⟩, r)
        | none => none

/-- Sequential frame decoding of a recorded stream, as performed by the
playback loop reading frame after frame.  The fuel bounds the number of
frames; a stream of n bytes holds fewer than n frames, so
`decodeFrames` below instantiates it with the stream length plus one. -/
def decodeFramesAux : Nat → List Nat → List RecFrame
  | 0, _ => []
  | fuel + 1, bytes =>
    match readFrame bytes with
    | none => []
    | some (f, rest) => f :: decodeFramesAux fuel rest

/-- All frames of a recorded stream, in order. -/
def decodeFrames (bytes : List Nat) : List RecFrame :=
  decodeFramesAux (bytes.length + 1) bytes

/-- Uint8Array.set with a source no longer than the target: overwrite the
first `data.length` entries, keep the rest. -/
def applySnapshot (channels data : List Nat) : List Nat :=
  data ++ channels.drop data.length

/-- The change-application loop shared by scheduleNextFrame and seek:
`channels[change.channel] = change.value` for each change (an
out-of-range index is ignored by a Uint8Array, as by `List.set`). -/
def applyChanges (channels : List Nat) (changes : List (Nat × Nat)) : List Nat :=
  changes.foldl (fun a c => a.set c.1 c.2) channels

/-- Applying one decoded frame to the live channel array, exactly as the
playback timer callback and the seek replay loop do. -/
def applyFrame (channels : List Nat) (f : RecFrame) : List Nat :=
  if f.isSnapshot then applySnapshot channels f.snapshotData
  else applyChanges channels f.changes

/-- DMXPlayer.buildFrameIndex: walk the stream recording, for every
snapshot frame, its byte offset and the cumulative position at the frame
start (the source pushes the entry before adding the frame delta to
`position`).  Delta frames are skipped by size; the extended count is
read with readUInt16LE.  The fuel bounds the iteration count. -/
def buildFrameIndexAux (frameData : List Nat) : Nat → Nat → Nat → List (Nat × Nat)
  | 0, _, _ => []
  | fuel + 1, offset, position =>
    if offset < frameData.length then
      let frameStart := offset
      let d := decodeVarint (frameData.drop offset)
      let o1 := offset + d.2
      match frameData.drop o1 with
      | [] => []
      | changeCount :: _ =>
        let entry := if changeCount = SNAPSHOT_MARKER then [(frameStart, position)] else []
        let o2 :=
          if changeCount = SNAPSHOT_MARKER then o1 + 1 + TOTAL_CHANNELS
          else if changeCount = EXTENDED_MARKER then
            o1 + 1 + 2 + 3 * readUInt16LE frameData (o1 + 1)
          else o1 + 1 + 3 * changeCount
        entry ++ buildFrameIndexAux frameData fuel o2 (position + d.1)
    else []

/-- The lazily built snapshot index. -/
def buildFrameIndex (frameData : List Nat) : List (Nat × Nat) :=
  buildFrameIndexAux frameData (frameData.length + 1) 0 0

/-- readNextFrame at a numeric frameOffset, returning the frame and the
advanced offset (the source mutates `this.frameOffset`). -/
def readFrameAt (frameData : List Nat) (offset : Nat) : Option (RecFrame × Nat) :=
  match readFrame (frameData.drop offset) with
  | none => none
  | some (f, rest) => some (f, frameData.length - rest.length)

/-- Result of a seek: the channel array, currentPosition, and
frameOffset. -/
structure SeekResult where
  channels : List Nat
  position : Nat
  offset : Nat
  deriving Repr, DecidableEq

/-- The replay loop of DMXPlayer.seek: while the position is short of the
target and bytes remain, read a frame; if its cumulative position would
pass the target, back up `currentPosition` only (the frame stays
consumed: `frameOffset` keeps the advanced value and the frame is not
applied) and stop; otherwise apply the frame and continue. -/
def seekLoop (frameData : List Nat) : Nat → Nat → Nat → Nat → List Nat → SeekResult
  | 0, offset, position, _, channels => ⟨channels, position, offset⟩
  | fuel + 1, offset, position, target, channels =>
    if position < target ∧ offset < frameData.length then
      match readFrameAt frameData offset with
      | none => ⟨channels, position, offset⟩
      | some (f, offset2) =>
        let position2 := position + f.deltaTime
        if target < position2 then ⟨channels, position2 - f.deltaTime, offset2⟩
        else seekLoop frameData fuel offset2 position2 target (applyFrame channels f)
    else ⟨channels, position, offset⟩

/-- DMXPlayer.seek: clamp the target into [0, duration], pick the last
indexed snapshot at or before the target (the source scans the index from
the end), zero the channels, apply that snapshot (reading it advances the
offset), then run the replay loop. -/
def playerSeek (frameData : List Nat) (duration : Nat) (positionMs : Int) : SeekResult :=
  let target := (max 0 (min positionMs (duration : Int))).toNat
  let index := buildFrameIndex frameData
  let zero := List.replicate TOTAL_CHANNELS 0
  match index.reverse.find? (fun e => e.2 ≤ target) with
  | some entry =>
    match readFrameAt frameData entry.1 with
    | some (f, offset2) =>
      let channels := if f.isSnapshot then applySnapshot zero f.snapshotData else zero
      seekLoop frameData (frameData.length + 1) offset2 entry.2 target channels
    | none => seekLoop frameData (frameData.length + 1) entry.1 entry.2 target zero
  | none => seekLoop frameData (frameData.length + 1) 0 0 target zero

/-- DMXPlayer.seekBackward: seek to the current position minus the step
(negative values are clamped inside seek). -/
def playerSeekBackward (frameData : List Nat) (duration currentPosition ms : Nat) : SeekResult :=
  playerSeek frameData duration ((currentPosition : Int) - (ms : Int))

/-- Reference definition for the live playback state.  Modelled from the
scheduleNextFrame timing semantics: each frame advances
`currentPosition` by its delta time and is applied to the channel array
when its timer fires at that cumulative position, so the channel state at
position T is the fold of every frame whose cumulative position is at
most T over the zeroed array.  Used to compare the state produced by
`playerSeek` against what live playback shows at the same position. -/
def livePlayAux : Nat → List Nat → List Nat → Nat → Nat → List Nat
  | 0, _, channels, _, _ => channels
  | fuel + 1, bytes, channels, position, target =>
    match readFrame bytes with
    | none => channels
    | some (f, rest) =>
      if position + f.deltaTime ≤ target then
        livePlayAux fuel rest (applyFrame channels f) (position + f.deltaTime) target
      else channels

/-- The channel state live playback shows at position T. -/
def livePlayChannelsAt (frameData : List Nat) (target : Nat) : List Nat :=
  livePlayAux (frameData.length + 1) frameData (List.replicate TOTAL_CHANNELS 0) 0 target

/-- The property the spec asserts of the source table: at most one entry
is flagged active (stated over indices, since entries themselves may
repeat). -/
def activeAtMostOne (l : List (String × SACNSourceInfo)) : Prop :=
  ∀ j1 (h1 : j1 < l.length) j2 (h2 : j2 < l.length),
    (l.get ⟨j1, h1⟩).2.isActive = true → (l.get ⟨j2, h2⟩).2.isActive = true → j1 = j2

/-- The property the spec asserts of the active entry: it carries the
numerically highest priority among tracked sources. -/
def activeIsMax (l : List (String × SACNSourceInfo)) : Prop :=
  ∀ j1 (h1 : j1 < l.length), (l.get ⟨j1, h1⟩).2.isActive = true →
    ∀ j2 (h2 : j2 < l.length), (l.get ⟨j2, h2⟩).2.priority ≤ (l.get ⟨j1, h1⟩).2.priority

/-! ### Concrete inputs used by counterexamples and witnesses -/

/-- The all-zero 512-channel frame. -/
def zero512 : List Nat := List.replicate TOTAL_CHANNELS 0

/-- A recorder immediately after startRecording at time t0 (protocol 0,
universe 1). -/
def recorderStartedAt (t0 : Nat) : RecorderState :=
  (startRecording initialRecorder 0 1 t0).1

/-- A valid Art-Net OpDmx datagram: universe 0, data length 3,
payload [7, 8, 9]. -/
def dmxMsgA : List Nat :=
  ARTNET_HEADER ++ [0x00, 0x50] ++ [0, 14] ++ [0, 0] ++ [0, 0] ++ [0, 3] ++ [7, 8, 9]

/-- A valid Art-Net OpDmx datagram: universe 0, data length 2,
payload [1, 2]. -/
def dmxMsgB : List Nat :=
  ARTNET_HEADER ++ [0x00, 0x50] ++ [0, 14] ++ [0, 0] ++ [0, 0] ++ [0, 2] ++ [1, 2]

/-- Two identical all-zero frames, the second 6000 ms after the first
(past the 5000 ms snapshot interval). -/
def stillTrace : List (Nat × List Nat) := [(0, zero512), (6000, zero512)]

/-- Channel frame with channel 0 at value 1, all others 0. -/
def frameA : List Nat := 1 :: List.replicate 511 0

/-- Channel frame with channel 0 at value 3, all others 0. -/
def frameC : List Nat := 3 :: List.replicate 511 0

/-- A recorded stream of three frames: a snapshot of frameA at position
0, a delta setting channel 0 to 2 at position 1000, and a snapshot of
frameC at position 2000. -/
def seekExampleStream : List Nat :=
  encodeSnapshotFrame frameA 0 ++ encodeDeltaFrame [(0, 2)] 1000 ++
    encodeSnapshotFrame frameC 1000

/-- A first full recording: one frame at t = 0, stopped at t = 10. -/
def firstRun : RecorderState × List (Nat × List Nat) × List (List Nat) :=
  runRecording initialRecorder 0 1 0 [(0, zero512)] 10

/-- A second recording by the same recorder instance, with no frames. -/
def secondRun : RecorderState × List (Nat × List Nat) × List (List Nat) :=
  runRecording firstRun.1 0 1 20 [] 30

/-- A three-frame trace: frameA, then frameC, then frameC again 10 ms
later (identical to its predecessor, within the snapshot interval). -/
def roundtripTrace : List (Nat × List Nat) := [(0, frameA), (10, frameC), (20, frameC)]

/-- The recorder after recording one frame (frameA at t = 0) from a fresh
recording: one snapshot written, frame counter 1. -/
def recAfterOne : RecorderState := (recordFrame (recorderStartedAt 0) 0 frameA).1

/-- A recorded stream of two frames: a snapshot of frameA at position 0
and a delta setting channel 0 to 2 at position 1000. -/
def seekExampleStream2 : List Nat :=
  encodeSnapshotFrame frameA 0 ++ encodeDeltaFrame [(0, 2)] 1000

/-- An Art-Net OpDmx datagram with a valid header and length but an
unsupported protocol version (13): dropped inside parseDMXPacket. -/
def dmxMsgBadVersion : List Nat :=
  ARTNET_HEADER ++ [0x00, 0x50] ++ [0, 13] ++ [0, 0] ++ [0, 0] ++ [0, 3] ++ [7, 8, 9]

/-! ### Helper lemmas: varint and frame codec round trips -/

theorem encodeVarintAux_fuelInv (v : Nat) : ∀ f1 f2, v ≤ f1 → v ≤ f2 →
    encodeVarintAux f1 v = encodeVarintAux f2 v := by
  induction v using Nat.strong_induction_on with
  | _ v ih =>
    intro f1 f2 h1 h2
    match f1, f2 with
    | 0, 0 => rfl
    | 0, f2 + 1 =>
      interval_cases v
      simp [encodeVarintAux]
    | f1 + 1, 0 =>
      interval_cases v
      simp [encodeVarintAux]
    | f1 + 1, f2 + 1 =>
      simp only [encodeVarintAux]
      split
      · next hv =>
        have hd : v / 128 < v := Nat.div_lt_self (by omega) (by omega)
        exact congrArg _ (ih (v / 128) hd f1 f2 (by omega) (by omega))
      · rfl

theorem encodeVarint_unfold (v : Nat) :
    encodeVarint v = if 127 < v then (v % 128 + 128) :: encodeVarint (v / 128) else [v] := by
  unfold encodeVarint
  cases v with
  | zero => simp [encodeVarintAux]
  | succ n =>
    have hd : (n + 1) / 128 < n + 1 := Nat.div_lt_self (by omega) (by omega)
    by_cases h : 127 < n + 1
    · simp only [encodeVarintAux, if_pos h]
      congr 1
      exact encodeVarintAux_fuelInv _ n _ (by omega) (le_refl _)
    · simp only [encodeVarintAux, if_neg h]

theorem encodeVarint_ne_nil (v : Nat) : encodeVarint v ≠ [] := by
  rw [encodeVarint_unfold]
  split <;> simp

theorem decodeVarintAux_encode (v : Nat) : ∀ rest shift,
    decodeVarintAux (encodeVarint v ++ rest) shift = (v * 2 ^ shift, (encodeVarint v).length) := by
  induction v using Nat.strong_induction_on with
  | _ v ih =>
    intro rest shift
    rw [encodeVarint_unfold v]
    by_cases h : 127 < v
    · have hd : v / 128 < v := Nat.div_lt_self (by omega) (by omega)
      simp only [if_pos h, List.cons_append, decodeVarintAux, List.length_cons]
      rw [if_neg (by omega), ih (v / 128) hd rest (shift + 7)]
      have hmod : (v % 128 + 128) % 128 = v % 128 := by omega
      have hpow : (2 : Nat) ^ (shift + 7) = 2 ^ shift * 128 := by
        rw [pow_add]; norm_num
      rw [hmod, hpow]
      have : v % 128 * 2 ^ shift + v / 128 * (2 ^ shift * 128) =
          (v % 128 + 128 * (v / 128)) * 2 ^ shift := by ring
      rw [this, Nat.mod_add_div]
    · simp only [if_neg h, List.cons_append, decodeVarintAux, List.length_cons,
        List.length_nil]
      rw [if_pos (by omega), Nat.mod_eq_of_lt (by omega)]

theorem decodeVarint_encode (v : Nat) (rest : List Nat) :
    decodeVarint (encodeVarint v ++ rest) = (v, (encodeVarint v).length) := by
  unfold decodeVarint
  rw [decodeVarintAux_encode v rest 0]
  simp

theorem decodeVarint_pos (bytes : List Nat) (h : bytes ≠ []) :
    1 ≤ (decodeVarint bytes).2 := by
  match bytes with
  | b :: bs =>
    unfold decodeVarint decodeVarintAux
    split <;> simp

theorem readPairs_encode (ps : List (Nat × Nat)) (rest : List Nat)
    (h : ∀ p ∈ ps, p.1 < 65536) :
    readPairs ps.length ((ps.map fun c => u16le c.1 ++ [c.2]).flatten ++ rest) =
      some (ps, rest) := by
  induction ps with
  | nil => simp [readPairs]
  | cons p t ih =>
    have hp : p.1 < 65536 := h p (by simp)
    have hch : p.1 % 256 + 256 * (p.1 / 256 % 256) = p.1 := by omega
    have hbytes : (((p :: t).map fun c => u16le c.1 ++ [c.2]).flatten) ++ rest =
        p.1 % 256 :: p.1 / 256 % 256 :: p.2 ::
          (((t.map fun c => u16le c.1 ++ [c.2]).flatten) ++ rest) := by
      simp [u16le]
    rw [hbytes]
    simp only [List.length_cons, readPairs]
    rw [ih (fun q hq => h q (by simp [hq]))]
    simp [hch]

theorem readPairs_length_le (n : Nat) : ∀ bs ps r, readPairs n bs = some (ps, r) →
    r.length ≤ bs.length := by
  induction n with
  | zero =>
    intro bs ps r h
    simp only [readPairs, Option.some.injEq, Prod.mk.injEq] at h
    rw [← h.2]
  | succ n ih =>
    intro bs ps r h
    match bs with
    | c1 :: c2 :: v :: bs2 =>
      simp only [readPairs] at h
      match hr : readPairs n bs2 with
      | some (ps2, r2) =>
        rw [hr] at h
        simp only [Option.some.injEq, Prod.mk.injEq] at h
        have hle := ih bs2 ps2 r2 hr
        rw [← h.2]
        simp only [List.length_cons]
        omega
      | none => rw [hr] at h; exact absurd h (by simp)
theorem readFrame_snapshot (c : List Nat) (d : Nat) (rest : List Nat)
    (hc : c.length = TOTAL_CHANNELS) :
    readFrame (encodeSnapshotFrame c d ++ rest) = some (⟨d, [], true, c⟩, rest) := by
  have htake : c.take TOTAL_CHANNELS = c := by
    rw [← hc]; exact List.take_length c
  have hbytes : encodeSnapshotFrame c d ++ rest =
      encodeVarint d ++ (SNAPSHOT_MARKER :: (c ++ rest)) := by
    unfold encodeSnapshotFrame
    rw [htake]
    simp
  rw [hbytes]
  have hne : ((encodeVarint d ++ (SNAPSHOT_MARKER :: (c ++ rest))).isEmpty = true) = False := by
    simp
  simp only [readFrame, hne, if_false, decodeVarint_encode, List.drop_left, if_pos rfl,
    if_true]
  rw [← hc, List.take_left, List.drop_left]
theorem readFrame_delta (ps : List (Nat × Nat)) (d : Nat) (rest : List Nat)
    (hlen : ps.length ≤ 65535) (hch : ∀ p ∈ ps, p.1 < 65536) :
    readFrame (encodeDeltaFrame ps d ++ rest) = some (⟨d, ps, false, []⟩, rest) := by
  by_cases hsmall : ps.length < SNAPSHOT_MARKER
  · have hbytes : encodeDeltaFrame ps d ++ rest =
        encodeVarint d ++ (ps.length ::
          (((ps.map fun c => u16le c.1 ++ [c.2]).flatten) ++ rest)) := by
      unfold encodeDeltaFrame
      rw [if_pos hsmall]
      simp
    rw [hbytes]
    have hemp : ((encodeVarint d ++ (ps.length ::
        (((ps.map fun c => u16le c.1 ++ [c.2]).flatten) ++ rest))).isEmpty = true) = False := by
      simp
    have h1 : (ps.length = SNAPSHOT_MARKER) = False := by
      simp only [eq_iff_iff, iff_false]
      omega
    have h2 : (ps.length = EXTENDED_MARKER) = False := by
      simp only [eq_iff_iff, iff_false]
      unfold SNAPSHOT_MARKER at hsmall
      unfold EXTENDED_MARKER
      omega
    simp only [readFrame, hemp, if_false, decodeVarint_encode, List.drop_left, h1, h2,
      readPairs_encode ps rest hch]
  · have hbytes : encodeDeltaFrame ps d ++ rest =
        encodeVarint d ++ (EXTENDED_MARKER :: (ps.length % 256 :: ps.length / 256 % 256 ::
          (((ps.map fun c => u16le c.1 ++ [c.2]).flatten) ++ rest))) := by
      unfold encodeDeltaFrame
      rw [if_neg hsmall]
      simp [u16le]
    rw [hbytes]
    have hemp : ((encodeVarint d ++ (EXTENDED_MARKER :: (ps.length % 256 ::
        ps.length / 256 % 256 ::
          (((ps.map fun c => u16le c.1 ++ [c.2]).flatten) ++ rest)))).isEmpty = true) = False := by
      simp
    have h1 : (EXTENDED_MARKER = SNAPSHOT_MARKER) = False := by decide
    have hcnt : ps.length % 256 + 256 * (ps.length / 256 % 256) = ps.length := by omega
    simp only [readFrame, hemp, if_false, decodeVarint_encode, List.drop_left, h1,
      if_pos rfl, if_true, hcnt, readPairs_encode ps rest hch]
theorem readFrame_consumes (bytes : List Nat) (f : RecFrame) (rest : List Nat)
    (h : readFrame bytes = some (f, rest)) : rest.length < bytes.length := by
  unfold readFrame at h
  by_cases hb : bytes.isEmpty
  · rw [if_pos hb] at h; simp at h
  · rw [if_neg hb] at h
    have hpos : 1 ≤ (decodeVarint bytes).2 := decodeVarint_pos bytes (by simpa using hb)
    have hblen : 1 ≤ bytes.length := by
      cases bytes with
      | nil => simp at hb
      | cons a t => simp
    dsimp only at h
    split at h
    · simp at h
    · next changeCount rest1 heq =>
      have hlen1 : rest1.length + 1 = bytes.length - (decodeVarint bytes).2 := by
        have hl := congrArg List.length heq
        simpa using hl.symm
      split at h
      · simp only [Option.some.injEq, Prod.mk.injEq] at h
        have hd := List.length_drop TOTAL_CHANNELS rest1
        rw [← h.2]
        omega
      · split at h
        · split at h
          · next lo hi rest2 =>
            split at h
            · next ps r hrp =>
              simp only [Option.some.injEq, Prod.mk.injEq] at h
              have hle := readPairs_length_le _ rest2 ps r hrp
              rw [← h.2]
              simp only [List.length_cons] at hlen1 ⊢
              omega
            · simp at h
          · simp at h
        · split at h
          · next ps r hrp =>
            simp only [Option.some.injEq, Prod.mk.injEq] at h
            have hle := readPairs_length_le _ rest1 ps r hrp
            rw [← h.2]
            omega
          · simp at h

theorem decodeFramesAux_fuelInv : ∀ f1 f2 bytes, bytes.length < f1 → bytes.length < f2 →
    decodeFramesAux f1 bytes = decodeFramesAux f2 bytes := by
  intro f1
  induction f1 with
  | zero => intro f2 bytes h1 _; omega
  | succ f1 ih =>
    intro f2 bytes h1 h2
    match f2 with
    | 0 => omega
    | f2 + 1 =>
      simp only [decodeFramesAux]
      match hrf : readFrame bytes with
      | none => rfl
      | some (fr, rest) =>
        have hlt := readFrame_consumes bytes fr rest hrf
        exact congrArg _ (ih f2 rest (by omega) (by omega))

theorem decodeFrames_cons (b : List Nat) (fr : RecFrame) (rest : List Nat)
    (h : ∀ r, readFrame (b ++ r) = some (fr, r)) :
    decodeFrames (b ++ rest) = fr :: decodeFrames rest := by
  have hb : b ≠ [] := by
    intro hnil
    have h1 := h []
    have h2 := readFrame_consumes ([] : List Nat) fr [] (by simpa [hnil] using h1)
    simp at h2
  have hbl : 0 < b.length := List.length_pos.mpr hb
  unfold decodeFrames
  have hstep : decodeFramesAux ((b ++ rest).length + 1) (b ++ rest) =
      fr :: decodeFramesAux ((b ++ rest).length) rest := by
    simp only [decodeFramesAux, h rest]
  rw [hstep]
  have hlt : rest.length < (b ++ rest).length := by
    simp only [List.length_append]
    omega
  exact congrArg _ (decodeFramesAux_fuelInv _ _ rest hlt (by omega))

/-! ### Helper lemmas: change sets and frame application -/

theorem getD_set_modelled (a : List Nat) (i j v : Nat) :
    (a.set i v).getD j 0 = if i = j ∧ j < a.length then v else a.getD j 0 := by
  by_cases hj : j < a.length
  · by_cases hij : i = j
    · subst hij
      rw [if_pos ⟨rfl, hj⟩]
      rw [List.getD_eq_getElem _ _ (by simpa using hj)]
      simp [List.getElem_set, hj]
    · rw [if_neg (by tauto)]
      rw [List.getD_eq_getElem _ _ (by simpa using hj),
        List.getD_eq_getElem _ _ hj]
      simp [List.getElem_set, hij]
  · rw [if_neg (by tauto)]
    rw [List.getD_eq_default _ _ (by simpa using hj),
      List.getD_eq_default _ _ (by omega)]

theorem applyChanges_length (changes : List (Nat × Nat)) :
    ∀ a : List Nat, (applyChanges a changes).length = a.length := by
  induction changes with
  | nil => intro a; rfl
  | cons c t ih =>
    intro a
    unfold applyChanges at ih ⊢
    simp only [List.foldl_cons]
    rw [ih (a.set c.1 c.2), List.length_set]

theorem diff_fold_getD (prev c : List Nat) (j : Nat) :
    ∀ (l : List Nat) (a : List Nat), j < a.length →
    (l.foldl (fun acc i => if c.getD i 0 ≠ prev.getD i 0 then acc.set i (c.getD i 0) else acc)
        a).getD j 0
      = if j ∈ l ∧ c.getD j 0 ≠ prev.getD j 0 then c.getD j 0 else a.getD j 0 := by
  intro l
  induction l with
  | nil => intro a hj; simp
  | cons x t ih =>
    intro a hj
    simp only [List.foldl_cons]
    by_cases hx : c.getD x 0 ≠ prev.getD x 0
    · rw [if_pos hx, ih (a.set x (c.getD x 0)) (by rwa [List.length_set]),
        getD_set_modelled]
      by_cases ht : j ∈ t ∧ c.getD j 0 ≠ prev.getD j 0
      · rw [if_pos ht, if_pos ⟨by simp [ht.1], ht.2⟩]
      · rw [if_neg ht]
        by_cases hxj : x = j
        · subst hxj
          rw [if_pos ⟨rfl, hj⟩, if_pos ⟨by simp, hx⟩]
        · rw [if_neg (by tauto)]
          by_cases hjm : j ∈ x :: t ∧ c.getD j 0 ≠ prev.getD j 0
          · rcases List.mem_cons.mp hjm.1 with h | h
            · exact absurd h.symm hxj
            · exact absurd ⟨h, hjm.2⟩ ht
          · rw [if_neg hjm]
    · rw [if_neg hx, ih a hj]
      by_cases ht : j ∈ t ∧ c.getD j 0 ≠ prev.getD j 0
      · rw [if_pos ht, if_pos ⟨by simp [ht.1], ht.2⟩]
      · rw [if_neg ht]
        by_cases hjm : j ∈ x :: t ∧ c.getD j 0 ≠ prev.getD j 0
        · rcases List.mem_cons.mp hjm.1 with h | h
          · subst h
            exact absurd hjm.2 hx
          · exact absurd ⟨h, hjm.2⟩ ht
        · rw [if_neg hjm]

theorem applyChanges_diff (prev c : List Nat) (hp : prev.length = TOTAL_CHANNELS)
    (hc : c.length = TOTAL_CHANNELS) :
    applyChanges prev (diffChanges prev c) = c := by
  have hfuse : ∀ (l : List Nat) (a : List Nat),
      ((l.filterMap fun i =>
          if c.getD i 0 ≠ prev.getD i 0 then some (i, c.getD i 0) else none).foldl
        (fun acc p => acc.set p.1 p.2) a)
      = l.foldl (fun acc i =>
          if c.getD i 0 ≠ prev.getD i 0 then acc.set i (c.getD i 0) else acc) a := by
    intro l
    induction l with
    | nil => intro a; rfl
    | cons x t ih =>
      intro a
      by_cases hx : c.getD x 0 ≠ prev.getD x 0
      · simp only [List.filterMap_cons, if_pos hx, List.foldl_cons, ih]
      · simp only [List.filterMap_cons, if_neg hx, List.foldl_cons, ih]
  have hlen : (applyChanges prev (diffChanges prev c)).length = c.length := by
    rw [applyChanges_length, hp, hc]
  apply List.ext_getElem hlen
  intro i h1 h2
  have hi : i < TOTAL_CHANNELS := hc ▸ h2
  have hip : i < prev.length := by rw [hp]; exact hi
  rw [← List.getD_eq_getElem _ 0 h1, ← List.getD_eq_getElem _ 0 h2]
  unfold applyChanges diffChanges
  rw [hfuse, diff_fold_getD prev c i (List.range TOTAL_CHANNELS) prev hip]
  by_cases hd : c.getD i 0 ≠ prev.getD i 0
  · rw [if_pos ⟨List.mem_range.mpr hi, hd⟩]
  · rw [if_neg (fun hcon => hd hcon.2)]
    have heq : c.getD i 0 = prev.getD i 0 := not_ne_iff.mp hd
    omega

theorem diffChanges_eq_nil (prev c : List Nat) (hp : prev.length = TOTAL_CHANNELS)
    (hc : c.length = TOTAL_CHANNELS) (h : diffChanges prev c = []) : c = prev := by
  unfold diffChanges at h
  rw [List.filterMap_eq_nil_iff] at h
  apply List.ext_getElem (by omega)
  intro i h1 h2
  have hi : i < TOTAL_CHANNELS := hc ▸ h1
  have hmem := h i (List.mem_range.mpr hi)
  rw [← List.getD_eq_getElem _ 0 h1, ← List.getD_eq_getElem _ 0 h2]
  by_cases hd : c.getD i 0 ≠ prev.getD i 0
  · rw [if_pos hd] at hmem; simp at hmem
  · have heq : c.getD i 0 = prev.getD i 0 := not_ne_iff.mp hd
    omega

theorem diffChanges_self (c : List Nat) : diffChanges c c = [] := by
  unfold diffChanges
  rw [List.filterMap_eq_nil_iff]
  intro a _
  simp

theorem diffChanges_channel_lt (prev c : List Nat) :
    ∀ p ∈ diffChanges prev c, p.1 < 65536 := by
  intro p hp
  unfold diffChanges at hp
  rw [List.mem_filterMap] at hp
  obtain ⟨i, hi, hif⟩ := hp
  by_cases hd : c.getD i 0 ≠ prev.getD i 0
  · rw [if_pos hd] at hif
    cases hif
    have hlt := List.mem_range.mp hi
    unfold TOTAL_CHANNELS at hlt
    omega
  · rw [if_neg hd] at hif
    cases hif

theorem diffChanges_length_le (prev c : List Nat) :
    (diffChanges prev c).length ≤ 65535 := by
  unfold diffChanges
  calc (List.filterMap _ (List.range TOTAL_CHANNELS)).length
      ≤ (List.range TOTAL_CHANNELS).length := List.length_filterMap_le _ _
    _ ≤ 65535 := by simp [TOTAL_CHANNELS]

/-! ### Helper lemmas: recording traces -/

theorem applySnapshot_full (ch data : List Nat) (h : data.length = ch.length) :
    applySnapshot ch data = data := by
  unfold applySnapshot
  rw [h, List.drop_length, List.append_nil]

theorem decodeFrames_nil : decodeFrames [] = [] := rfl

theorem recordFrame_recording (st : RecorderState) (now : Nat) (c : List Nat) :
    ((recordFrame st now c).1).recording = st.recording := by
  unfold recordFrame
  dsimp only
  split
  · rfl
  · split
    · rfl
    · split <;> rfl

theorem recordFrame_count_ne (st : RecorderState) (now : Nat) (c : List Nat)
    (hrec : st.recording = true) : ((recordFrame st now c).1).count ≠ 0 := by
  unfold recordFrame
  rw [hrec]
  simp only [Bool.true_eq_false, if_false]
  by_cases h0 : st.count = 0 ∨ 5000 ≤ now - st.lastSnap
  · rw [if_pos h0]
    simp
  · rw [if_neg h0]
    split
    · simp only []
      omega
    · simp only []
      omega

set_option maxRecDepth 4000 in
theorem recordFrame_step (st : RecorderState) (now : Nat) (c : List Nat)
    (hrec : st.recording = true) (hp : st.prev.length = TOTAL_CHANNELS)
    (hc : c.length = TOTAL_CHANNELS) :
    ((recordFrame st now c).2 = [] ∧ (recordFrame st now c).1 = st ∧ c = st.prev) ∨
    (∃ fr, (∀ rest, readFrame ((recordFrame st now c).2 ++ rest) = some (fr, rest)) ∧
      applyFrame st.prev fr = c ∧ (recordFrame st now c).1.prev = c) := by
  unfold recordFrame
  rw [hrec]
  simp only [Bool.true_eq_false, if_false]
  by_cases h0 : st.count = 0 ∨ 5000 ≤ now - st.lastSnap
  · rw [if_pos h0]
    right
    refine ⟨⟨if st.count = 0 then 0 else now - st.lastFrame, [], true, c⟩, ?_, ?_, rfl⟩
    · intro rest
      exact readFrame_snapshot c _ rest hc
    · show applySnapshot st.prev c = c
      exact applySnapshot_full st.prev c (by omega)
  · rw [if_neg h0]
    by_cases hch : (diffChanges st.prev c).isEmpty
    · rw [if_pos hch]
      left
      exact ⟨rfl, rfl, diffChanges_eq_nil st.prev c hp hc (by simpa using hch)⟩
    · rw [if_neg hch]
      right
      refine ⟨⟨if st.count = 0 then 0 else now - st.lastFrame,
        diffChanges st.prev c, false, []⟩, ?_, ?_, rfl⟩
      · intro rest
        exact readFrame_delta (diffChanges st.prev c) _ rest
          (diffChanges_length_le st.prev c) (diffChanges_channel_lt st.prev c)
      · show applyChanges st.prev (diffChanges st.prev c) = c
        exact applyChanges_diff st.prev c hp hc

theorem recordTrace_length (inputs : List (Nat × List Nat)) : ∀ st : RecorderState,
    (recordTrace st inputs).2.length = inputs.length := by
  induction inputs with
  | nil => intro st; rfl
  | cons p rest ih =>
    intro st
    obtain ⟨t, c⟩ := p
    simp only [recordTrace, List.length_cons, ih]

set_option maxRecDepth 16000 in
theorem recordTrace_boundary (inputs : List (Nat × List Nat)) : ∀ st : RecorderState,
    st.recording = true → st.prev.length = TOTAL_CHANNELS →
    (∀ p ∈ inputs, (p.2).length = TOTAL_CHANNELS) →
    ∀ i, i < inputs.length →
      List.foldl applyFrame st.prev
        (decodeFrames (((recordTrace st inputs).2.take (i + 1)).flatten))
        = (inputs.getD i (0, [])).2 := by
  induction inputs with
  | nil =>
    intro st _ _ _ i hi
    simp at hi
  | cons p rest ih =>
    intro st hrec hp hlen i hi
    obtain ⟨t, c⟩ := p
    have hc : c.length = TOTAL_CHANNELS := hlen (t, c) (by simp)
    have hchunks : (recordTrace st ((t, c) :: rest)).2 =
        (recordFrame st t c).2 :: (recordTrace (recordFrame st t c).1 rest).2 := by
      simp only [recordTrace]
    have hrec2 : ((recordFrame st t c).1).recording = true := by
      rw [recordFrame_recording, hrec]
    rcases recordFrame_step st t c hrec hp hc with ⟨hb, hst, hcp⟩ | ⟨fr, hread, happ, hprev⟩
    · match i with
      | 0 =>
        simp only [hchunks, hb, List.take_succ_cons, List.take_zero, List.flatten_cons,
          List.flatten_nil, List.nil_append, decodeFrames_nil, List.foldl_nil, List.getD_cons_zero]
        exact hcp.symm
      | i + 1 =>
        simp only [hchunks, hb, List.take_succ_cons, List.flatten_cons, List.nil_append,
          List.getD_cons_succ]
        rw [hst]
        have hcpst : st.prev = c := hcp.symm
        exact ih st hrec hp (fun q hq => hlen q (by simp [hq])) i (by simpa using hi)
    · have hprevlen : ((recordFrame st t c).1).prev.length = TOTAL_CHANNELS := by
        rw [hprev, hc]
      match i with
      | 0 =>
        simp only [hchunks, List.take_succ_cons, List.take_zero, List.flatten_cons,
          List.flatten_nil, List.getD_cons_zero]
        rw [List.append_nil]
        have hd : decodeFrames ((recordFrame st t c).2) = [fr] := by
          have := decodeFrames_cons (recordFrame st t c).2 fr [] hread
          simpa using this
        rw [hd]
        simpa using happ
      | i + 1 =>
        simp only [hchunks, List.take_succ_cons, List.flatten_cons, List.getD_cons_succ]
        rw [decodeFrames_cons _ fr _ hread, List.foldl_cons, happ]
        have hres := ih (recordFrame st t c).1 hrec2 hprevlen
          (fun q hq => hlen q (by simp [hq])) i (by simpa using hi)
        rw [hprev] at hres
        exact hres

theorem recStates_length (inputs : List (Nat × List Nat)) : ∀ st : RecorderState,
    (recStates st inputs).length = inputs.length := by
  induction inputs with
  | nil => intro st; rfl
  | cons p rest ih =>
    intro st
    obtain ⟨t, c⟩ := p
    simp only [recStates, List.length_cons, ih]

theorem recStates_recording (inputs : List (Nat × List Nat)) :
    ∀ (st d : RecorderState), st.recording = true →
    ∀ i, i < inputs.length → ((recStates st inputs).getD i d).recording = true := by
  induction inputs with
  | nil => intro st d _ i hi; simp at hi
  | cons p rest ih =>
    intro st d hrec i hi
    obtain ⟨t, c⟩ := p
    match i with
    | 0 => simpa [recStates] using hrec
    | i + 1 =>
      have hrec2 : ((recordFrame st t c).1).recording = true := by
        rw [recordFrame_recording, hrec]
      simpa [recStates] using ih (recordFrame st t c).1 d hrec2 i (by simpa using hi)

theorem recStates_after (inputs : List (Nat × List Nat)) :
    ∀ (st d : RecorderState), st.recording = true → st.prev.length = TOTAL_CHANNELS →
    (∀ p ∈ inputs, (p.2).length = TOTAL_CHANNELS) →
    ∀ i, i + 1 < inputs.length →
      ((recStates st inputs).getD (i + 1) d).prev = (inputs.getD i (0, [])).2 ∧
      ((recStates st inputs).getD (i + 1) d).count ≠ 0 := by
  induction inputs with
  | nil => intro st d _ _ _ i hi; simp at hi
  | cons p rest ih =>
    intro st d hrec hp hlen i hi
    obtain ⟨t, c⟩ := p
    have hc : c.length = TOTAL_CHANNELS := hlen (t, c) (by simp)
    have hrec2 : ((recordFrame st t c).1).recording = true := by
      rw [recordFrame_recording, hrec]
    have hprev2 : ((recordFrame st t c).1).prev = c := by
      rcases recordFrame_step st t c hrec hp hc with ⟨_, hst, hcp⟩ | ⟨_, _, _, hprev⟩
      · rw [hst, ← hcp]
      · exact hprev
    have hplen2 : ((recordFrame st t c).1).prev.length = TOTAL_CHANNELS := by
      rw [hprev2, hc]
    match i with
    | 0 =>
      have hrestlen : 0 < rest.length := by simpa using hi
      match hr : rest with
      | [] => simp [hr] at hrestlen
      | q :: rest2 =>
        obtain ⟨tq, cq⟩ := q
        refine ⟨?_, ?_⟩
        · simpa [recStates] using hprev2
        · have := recordFrame_count_ne st t c hrec
          simpa [recStates] using this
    | i + 1 =>
      have := ih (recordFrame st t c).1 d hrec2 hplen2
        (fun q hq => hlen q (by simp [hq])) i (by simpa using hi)
      simpa [recStates] using this

theorem recordTrace_chunk_getD (inputs : List (Nat × List Nat)) :
    ∀ (st : RecorderState) (d : RecorderState) i, i < inputs.length →
    (recordTrace st inputs).2.getD i [] =
      (recordFrame ((recStates st inputs).getD i d)
        (inputs.getD i (0, [])).1 (inputs.getD i (0, [])).2).2 := by
  induction inputs with
  | nil => intro st d i hi; simp at hi
  | cons p rest ih =>
    intro st d i hi
    obtain ⟨t, c⟩ := p
    match i with
    | 0 => simp [recordTrace, recStates]
    | i + 1 =>
      simpa [recordTrace, recStates] using
        ih (recordFrame st t c).1 d i (by simpa using hi)

theorem recordFrame_skip (st : RecorderState) (now : Nat) (c : List Nat)
    (hrec : st.recording = true) (hceq : c = st.prev) (hcount : st.count ≠ 0)
    (hsnap : now < st.lastSnap + 5000) :
    recordFrame st now c = (st, []) := by
  unfold recordFrame
  rw [hrec]
  simp only [Bool.true_eq_false, if_false]
  rw [if_neg (by omega)]
  rw [hceq, diffChanges_self]
  simp

theorem recordTrace_skip (inputs : List (Nat × List Nat)) (st d : RecorderState)
    (hrec : st.recording = true)
    (i : Nat) (hi : i < inputs.length)
    (hceq : (inputs.getD i (0, [])).2 = ((recStates st inputs).getD i d).prev)
    (hcount : ((recStates st inputs).getD i d).count ≠ 0)
    (hsnap : (inputs.getD i (0, [])).1 < ((recStates st inputs).getD i d).lastSnap + 5000) :
    (recordTrace st inputs).2.getD i [] = [] := by
  rw [recordTrace_chunk_getD inputs st d i hi]
  rw [recordFrame_skip _ _ _ (recStates_recording inputs st d hrec i hi) hceq hcount hsnap]

set_option maxRecDepth 100000 in
/-- Claim C3, counterexample: the claim quantifies over every time-ordered
sequence containing a frame identical to its predecessor and asserts that
the unchanged frame contributes zero bytes and is not emitted as a played
frame.  In `stillTrace` the second frame is identical to the first but
arrives 6000 ms later, past the 5000 ms snapshot interval, so
recordFrame writes it as a full snapshot: its chunk is non-empty and the
loaded stream decodes to two played frames, not one. -/
theorem recording_unchanged_snapshot_cex :
    (recordTrace (recorderStartedAt 0) stillTrace).2.getD 1 [] ≠ [] ∧
    (decodeFrames ((recordTrace (recorderStartedAt 0) stillTrace).2.flatten)).length = 2 := by
  constructor
  · decide
  · decide

/-- Claim C3 (amended): for every time-ordered sequence of 512-channel
byte frames recorded from a fresh recording, replaying the decoded frame
stream reproduces the exact channel state at every originally-recorded
frame boundary; a frame identical to its predecessor that is recorded
before the 5000 ms snapshot interval has elapsed contributes zero bytes
to the file and is not emitted as a played frame (the amendment: an
unchanged frame at or past the snapshot interval is written as a full
snapshot and is played). -/
theorem recording_roundtrip (inputs : List (Nat × List Nat)) (t0 : Nat)
    (hlen : ∀ p ∈ inputs, (p.2).length = TOTAL_CHANNELS)
    (hbytes : ∀ p ∈ inputs, ∀ v ∈ p.2, v < 256)
    (hchain : List.Chain (fun a b => a ≤ b) t0 (inputs.map Prod.fst)) :
    (recordTrace (recorderStartedAt t0) inputs).2.length = inputs.length ∧
    (∀ i, i < inputs.length →
      List.foldl applyFrame (List.replicate TOTAL_CHANNELS 0)
        (decodeFrames (((recordTrace (recorderStartedAt t0) inputs).2.take (i + 1)).flatten))
        = (inputs.getD i (0, [])).2) ∧
    (∀ i, i + 1 < inputs.length →
      (inputs.getD (i + 1) (0, [])).2 = (inputs.getD i (0, [])).2 →
      (inputs.getD (i + 1) (0, [])).1 <
        ((recStates (recorderStartedAt t0) inputs).getD (i + 1)
          (recorderStartedAt t0)).lastSnap + 5000 →
      (recordTrace (recorderStartedAt t0) inputs).2.getD (i + 1) [] = []) := by
  have hrec : (recorderStartedAt t0).recording = true := by
    simp [recorderStartedAt, startRecording, initialRecorder]
  have hprev : (recorderStartedAt t0).prev = List.replicate TOTAL_CHANNELS 0 := by
    simp [recorderStartedAt, startRecording, initialRecorder]
  have hplen : (recorderStartedAt t0).prev.length = TOTAL_CHANNELS := by
    rw [hprev, List.length_replicate]
  refine ⟨recordTrace_length inputs _, ?_, ?_⟩
  · intro i hi
    have := recordTrace_boundary inputs (recorderStartedAt t0) hrec hplen hlen i hi
    rwa [hprev] at this
  · intro i hi heqprev hsnap
    have hafter := recStates_after inputs (recorderStartedAt t0) (recorderStartedAt t0)
      hrec hplen hlen i hi
    exact recordTrace_skip inputs (recorderStartedAt t0) (recorderStartedAt t0) hrec
      (i + 1) hi (by rw [hafter.1]; exact heqprev) hafter.2 hsnap

set_option maxRecDepth 1000000 in
/-- Witness for recording_roundtrip at the concrete trace
roundtripTrace. -/
theorem recording_roundtrip_witness :
    (∀ i, i < roundtripTrace.length →
      List.foldl applyFrame (List.replicate TOTAL_CHANNELS 0)
        (decodeFrames (((recordTrace (recorderStartedAt 0) roundtripTrace).2.take (i + 1)).flatten))
        = (roundtripTrace.getD i (0, [])).2) ∧
    (recordTrace (recorderStartedAt 0) roundtripTrace).2.getD 2 [] = [] := by
  have h := recording_roundtrip roundtripTrace 0 (by decide) (by decide)
    (by simp [roundtripTrace, List.chain_cons])
  exact ⟨h.2.1, h.2.2 1 (by decide) (by decide) (by decide)⟩

/-- Claim C6: a recordFrame call while recording whose channel array
equals the previous-channel cache, and which does not hit the snapshot
threshold (it is not the first frame and less than 5000 ms have passed
since the last snapshot), writes no bytes and leaves the state - the
previous-channel cache, the last-frame timestamp and the frame count -
unchanged; consequently any next written frame encodes a delta time equal
to the full wall-clock gap since the last written frame. -/
theorem recordFrame_still_frame_noop (st : RecorderState) (now : Nat) (c : List Nat)
    (hrec : st.recording = true) (hceq : c = st.prev) (hcount : st.count ≠ 0)
    (hsnap : now < st.lastSnap + 5000) :
    recordFrame st now c = (st, []) ∧
    (∀ now2 c2, (recordFrame st now2 c2).2 = [] ∨
      ∃ tail, (recordFrame st now2 c2).2 = encodeVarint (now2 - st.lastFrame) ++ tail) := by
  refine ⟨recordFrame_skip st now c hrec hceq hcount hsnap, ?_⟩
  intro now2 c2
  unfold recordFrame
  rw [hrec]
  simp only [Bool.true_eq_false, if_false]
  by_cases h0 : st.count = 0 ∨ 5000 ≤ now2 - st.lastSnap
  · rw [if_pos h0]
    right
    refine ⟨SNAPSHOT_MARKER :: c2.take TOTAL_CHANNELS, ?_⟩
    rw [if_neg hcount]
    rfl
  · rw [if_neg h0]
    by_cases hch : (diffChanges st.prev c2).isEmpty
    · rw [if_pos hch]
      left
      rfl
    · rw [if_neg hch]
      right
      refine ⟨(if (diffChanges st.prev c2).length < SNAPSHOT_MARKER
          then [(diffChanges st.prev c2).length]
          else EXTENDED_MARKER :: u16le (diffChanges st.prev c2).length) ++
          ((diffChanges st.prev c2).map fun ch => u16le ch.1 ++ [ch.2]).flatten, ?_⟩
      rw [if_neg hcount]
      simp [encodeDeltaFrame]

set_option maxRecDepth 100000 in
/-- Witness for recordFrame_still_frame_noop: the recorder after one
frame, fed the same frame again 100 ms later. -/
theorem recordFrame_still_frame_noop_witness :
    recordFrame recAfterOne 100 frameA = (recAfterOne, []) ∧
    (∀ now2 c2, (recordFrame recAfterOne now2 c2).2 = [] ∨
      ∃ tail, (recordFrame recAfterOne now2 c2).2 =
        encodeVarint (now2 - recAfterOne.lastFrame) ++ tail) :=
  recordFrame_still_frame_noop recAfterOne 100 frameA (by decide) (by decide)
    (by decide) (by decide)

/-! ### Helper lemmas: header fields -/

theorem createHeader_length (st : RecorderState) (d : Nat) :
    (createHeader st d).length = 32 := by
  simp [createHeader, u16le, u64le, u32le]

theorem createHeader_duration (st : RecorderState) (d : Nat) (h : d < 4294967296) :
    readUInt32LE (createHeader st d) 17 = d := by
  have hr : readUInt32LE (createHeader st d) 17 =
      d % 256 + 256 * (d / 256 % 256) + 65536 * (d / 65536 % 256) +
        16777216 * (d / 16777216 % 256) := rfl
  rw [hr]
  omega

theorem createHeader_frameCount (st : RecorderState) (d : Nat)
    (h : st.count < 4294967296) :
    readUInt32LE (createHeader st d) 21 = st.count := by
  have hr : readUInt32LE (createHeader st d) 21 =
      st.count % 256 + 256 * (st.count / 256 % 256) + 65536 * (st.count / 65536 % 256) +
        16777216 * (st.count / 16777216 % 256) := rfl
  rw [hr]
  omega

theorem recordFrame_startTime (st : RecorderState) (now : Nat) (c : List Nat) :
    ((recordFrame st now c).1).startTime = st.startTime := by
  unfold recordFrame
  dsimp only
  split
  · rfl
  · split
    · rfl
    · split <;> rfl

theorem recordTrace_stable (inputs : List (Nat × List Nat)) : ∀ st : RecorderState,
    ((recordTrace st inputs).1).recording = st.recording ∧
    ((recordTrace st inputs).1).startTime = st.startTime := by
  induction inputs with
  | nil => intro st; exact ⟨rfl, rfl⟩
  | cons p rest ih =>
    intro st
    obtain ⟨t, c⟩ := p
    have h1 := ih (recordFrame st t c).1
    have h2 := recordFrame_recording st t c
    have h3 := recordFrame_startTime st t c
    simp only [recordTrace]
    exact ⟨h1.1.trans h2, h1.2.trans h3⟩

/-- Claim C7 (amended): every recording writes its header exactly twice,
both times at file offset 0: a provisional 32-byte header at recording
start with duration 0 and frame count equal to the recorder instance's
frame counter from before the reset (0 for a fresh recorder; the previous
recording's frame count when the same instance records again - the
amendment, since startRecording builds the header before resetting the
counter), and a final header at stop with the measured duration and the
actual frame count. -/
theorem recording_header_twice (st : RecorderState) (protocol univ t0 t1 : Nat)
    (inputs : List (Nat × List Nat)) (hidle : st.recording = false)
    (hdur : t1 - t0 < 4294967296) (hcount : st.count < 4294967296)
    (hframes : ((recordTrace (startRecording st protocol univ t0).1 inputs).1).count
      < 4294967296) :
    ∃ h1 h2,
      (runRecording st protocol univ t0 inputs t1).2.1 = [(0, h1), (0, h2)] ∧
      h1.length = 32 ∧ h2.length = 32 ∧
      readUInt32LE h1 17 = 0 ∧ readUInt32LE h1 21 = st.count ∧
      readUInt32LE h2 17 = t1 - t0 ∧
      readUInt32LE h2 21 =
        ((recordTrace (startRecording st protocol univ t0).1 inputs).1).count := by
  have hstart1 : (startRecording st protocol univ t0).2 =
      createHeader { st with protocol := protocol, univ := univ } 0 := by
    unfold startRecording
    rw [if_neg (by simp [hidle])]
  have hstable := recordTrace_stable inputs (startRecording st protocol univ t0).1
  have hrec0 : (startRecording st protocol univ t0).1.recording = true := by
    unfold startRecording
    rw [if_neg (by simp [hidle])]
  have htime0 : (startRecording st protocol univ t0).1.startTime = t0 := by
    unfold startRecording
    rw [if_neg (by simp [hidle])]
  have hrec1 : ((recordTrace (startRecording st protocol univ t0).1 inputs).1).recording
      = true := hstable.1.trans hrec0
  have hst1 : ((recordTrace (startRecording st protocol univ t0).1 inputs).1).startTime
      = t0 := hstable.2.trans htime0
  have hstop1 :
      (stopRecording (recordTrace (startRecording st protocol univ t0).1 inputs).1 t1).2 =
      createHeader (recordTrace (startRecording st protocol univ t0).1 inputs).1
        (t1 - ((recordTrace (startRecording st protocol univ t0).1 inputs).1).startTime) := by
    unfold stopRecording
    rw [if_neg (by simp [hrec1])]
  refine ⟨(startRecording st protocol univ t0).2,
    (stopRecording (recordTrace (startRecording st protocol univ t0).1 inputs).1 t1).2,
    ?_, ?_, ?_, ?_, ?_, ?_, ?_⟩
  · unfold runRecording
    rfl
  · rw [hstart1]; exact createHeader_length _ _
  · rw [hstop1]; exact createHeader_length _ _
  · rw [hstart1]; exact createHeader_duration _ 0 (by omega)
  · rw [hstart1]; exact createHeader_frameCount _ 0 hcount
  · rw [hstop1, hst1]; exact createHeader_duration _ _ hdur
  · rw [hstop1]; exact createHeader_frameCount _ _ hframes

set_option maxRecDepth 400000 in
/-- Claim C7, counterexample: the claim as stated requires the
provisional header of every recording to carry frame_count = 0, including
a second recording by the same recorder instance.  After firstRun wrote
one frame, the provisional header of secondRun carries frame count 1 (the
counter is reset only after the header is built). -/
theorem header_second_recording_cex :
    readUInt32LE ((secondRun.2.1.getD 0 (0, [])).2) 21 = 1 ∧ (1 : Nat) ≠ 0 := by
  constructor
  · decide
  · decide

set_option maxRecDepth 400000 in
/-- Witness for recording_header_twice: a fresh recorder, one frame,
stopped at t = 10. -/
theorem recording_header_twice_witness :
    ∃ h1 h2,
      (runRecording initialRecorder 0 1 0 [(0, zero512)] 10).2.1 = [(0, h1), (0, h2)] ∧
      h1.length = 32 ∧ h2.length = 32 ∧
      readUInt32LE h1 17 = 0 ∧ readUInt32LE h1 21 = initialRecorder.count ∧
      readUInt32LE h2 17 = 10 - 0 ∧
      readUInt32LE h2 21 =
        ((recordTrace (startRecording initialRecorder 0 1 0).1 [(0, zero512)]).1).count :=
  recording_header_twice initialRecorder 0 1 0 10 [(0, zero512)] (by decide) (by decide)
    (by decide) (by decide)

/-! ### Helper lemmas: Art-Net parsing -/

theorem getD_map_range (n : Nat) (f : Nat → Nat) (i : Nat) (h : i < n) :
    ((List.range n).map f).getD i 0 = f i := by
  rw [List.getD_eq_getElem _ _ (by simpa using h)]
  simp

theorem parseDMX_valid (msg : List Nat) (U L : Nat)
    (hver : 14 ≤ readUInt16BE msg 10)
    (hU : readUInt16LE msg 14 = U) (hUv : U ≤ 63999)
    (hL : readUInt16BE msg 16 = L) (hL2 : 2 ≤ L) (hL512 : L ≤ 512)
    (hlen : 18 + L ≤ msg.length) :
    parseDMXPacket msg = some ⟨U,
      (List.range TOTAL_CHANNELS).map fun i => if i < L then msg.getD (18 + i) 0 else 0,
      msg.getD 12 0⟩ := by
  unfold parseDMXPacket
  dsimp only
  rw [if_neg (by omega), hU, hL]
  rw [if_neg (by simp [isValidUniverse]; omega)]
  rw [if_neg (by omega), if_neg (by omega)]
  have hmin : min L TOTAL_CHANNELS = L := by
    unfold TOTAL_CHANNELS
    omega
  rw [hmin]

set_option maxRecDepth 100000 in
/-- Claim C1, counterexample: the claim asserts that channels beyond the
wire data length are unchanged from the channel state of the prior
packet.  dmxMsgA sets channel 2 to 9; decoding the following shorter
datagram dmxMsgB (data length 2) yields channel 2 = 0, not 9: the parser
builds every packet from a freshly zeroed array and carries no prior
state. -/
theorem artnet_parse_prior_state_cex :
    (parseDMXPacket dmxMsgA).map (fun p => p.channels.getD 2 0) = some 9 ∧
    (parseDMXPacket dmxMsgB).map (fun p => p.channels.getD 2 0) = some 0 ∧
    (9 : Nat) ≠ 0 := by
  refine ⟨by decide, by decide, by decide⟩

/-- Claim C1 (amended): decoding a valid Art-Net DMX datagram with data
length L (2 to 512) and universe U (0 to 63999) yields a DMXPacket whose
universe equals U, whose first L channel bytes equal the datagram payload
at offset 18, and whose remaining channels (L to 511) are zero - the
amendment: the parser fills a fresh zeroed array per packet, so channels
beyond L are zero, not carried over from the prior packet. -/
theorem artnet_parse_dmx_decodes (msg : List Nat) (U L : Nat)
    (hver : 14 ≤ readUInt16BE msg 10)
    (hU : readUInt16LE msg 14 = U) (hUv : U ≤ 63999)
    (hL : readUInt16BE msg 16 = L) (hL2 : 2 ≤ L) (hL512 : L ≤ 512)
    (hlen : 18 + L ≤ msg.length) :
    ∃ p, parseDMXPacket msg = some p ∧ p.univ = U ∧
      p.channels.length = TOTAL_CHANNELS ∧
      (∀ i, i < L → p.channels.getD i 0 = msg.getD (18 + i) 0) ∧
      (∀ i, L ≤ i → i < TOTAL_CHANNELS → p.channels.getD i 0 = 0) := by
  refine ⟨_, parseDMX_valid msg U L hver hU hUv hL hL2 hL512 hlen, rfl, by simp, ?_, ?_⟩
  · intro i hi
    have hi512 : i < TOTAL_CHANNELS := by
      unfold TOTAL_CHANNELS
      omega
    rw [getD_map_range _ _ i hi512, if_pos hi]
  · intro i hLi hi512
    rw [getD_map_range _ _ i hi512, if_neg (by omega)]

/-- Witness for artnet_parse_dmx_decodes at dmxMsgB (universe 0, data
length 2). -/
theorem artnet_parse_dmx_decodes_witness :
    (14 ≤ readUInt16BE dmxMsgB 10 ∧ readUInt16LE dmxMsgB 14 = 0 ∧
      readUInt16BE dmxMsgB 16 = 2 ∧ 18 + 2 ≤ dmxMsgB.length) ∧
    (∃ p, parseDMXPacket dmxMsgB = some p ∧ p.univ = 0 ∧
      p.channels.length = TOTAL_CHANNELS ∧
      (∀ i, i < 2 → p.channels.getD i 0 = dmxMsgB.getD (18 + i) 0) ∧
      (∀ i, 2 ≤ i → i < TOTAL_CHANNELS → p.channels.getD i 0 = 0)) :=
  ⟨⟨by decide, by decide, by decide, by decide⟩,
    artnet_parse_dmx_decodes dmxMsgB 0 2 (by decide) (by decide) (by decide) (by decide)
      (by decide) (by decide) (by decide)⟩

theorem validateHeader_take (msg : List Nat) (h8 : 8 ≤ msg.length)
    (hv : validateHeader msg = true) : msg.take 8 = ARTNET_HEADER := by
  unfold validateHeader at hv
  rw [List.all_eq_true] at hv
  apply List.ext_getElem
  · simp [ARTNET_HEADER]
    omega
  · intro i h1 h2
    have hi8 : i < 8 := by
      simpa [ARTNET_HEADER] using h2
    have hmem := hv i (List.mem_range.mpr hi8)
    rw [beq_iff_eq] at hmem
    have hil : i < msg.length := by omega
    rw [List.getElem_take]
    rw [List.getD_eq_getElem _ _ hil] at hmem
    rw [List.getD_eq_getElem _ _ (by simpa [ARTNET_HEADER] using hi8)] at hmem
    exact hmem

/-- Claim C8: every byte sequence whose first 8 bytes differ from the
Art-Net header or whose length is below the 18-byte minimum is dropped by
handleMessage without emitting a DMXPacket; likewise every malformed DMX
datagram - unsupported protocol version (below 14), data length outside
[2, 512], or a datagram truncated below 18 + length bytes - is dropped by
parseDMXPacket and emits no DMXPacket (the model is a total function, so
no exception can be raised). -/
theorem malformed_datagram_dropped (msg : List Nat) :
    ((msg.take 8 ≠ ARTNET_HEADER ∨ msg.length < 18) →
      emittedPacket (handleMessage msg) = none) ∧
    ((readUInt16BE msg 10 < 14 ∨ readUInt16BE msg 16 < 2 ∨ 512 < readUInt16BE msg 16 ∨
        msg.length < 18 + readUInt16BE msg 16) →
      parseDMXPacket msg = none ∧ emittedPacket (handleMessage msg) = none) := by
  constructor
  · intro h
    unfold handleMessage
    by_cases hlen : msg.length < 18
    · rw [if_pos hlen]
      rfl
    · rw [if_neg hlen]
      rcases h with hhd | hl
      · have hv : ¬ validateHeader msg = true := by
          intro hvt
          exact hhd (validateHeader_take msg (by omega) hvt)
        rw [if_pos hv]
        rfl
      · omega
  · intro h
    have hp : parseDMXPacket msg = none := by
      unfold parseDMXPacket
      dsimp only
      by_cases hver : readUInt16BE msg 10 < 14
      · rw [if_pos hver]
      · rw [if_neg hver]
        by_cases huni : ¬ isValidUniverse (readUInt16LE msg 14)
        · rw [if_pos huni]
        · rw [if_neg huni]
          by_cases hdl : readUInt16BE msg 16 < 2 ∨ 512 < readUInt16BE msg 16
          · rw [if_pos hdl]
          · rw [if_neg hdl]
            rw [if_pos (by omega)]
    refine ⟨hp, ?_⟩
    unfold handleMessage
    by_cases h18 : msg.length < 18
    · rw [if_pos h18]
      rfl
    · rw [if_neg h18]
      by_cases hvh : ¬ validateHeader msg = true
      · rw [if_pos hvh]
        rfl
      · rw [if_neg hvh]
        dsimp only
        by_cases hop : readUInt16LE msg 8 = 0x5000
        · rw [if_pos hop, hp]
          rfl
        · rw [if_neg hop]
          by_cases hpr : readUInt16LE msg 8 = 0x2100
          · rw [if_pos hpr]
            rfl
          · rw [if_neg hpr]
            rfl

/-- Witness for malformed_datagram_dropped: a three-byte datagram (bad
header and too short), and a 21-byte datagram with a valid header and
OpDmx opcode but protocol version 13 (unsupported, dropped inside
parseDMXPacket). -/
theorem malformed_datagram_dropped_witness :
    ((([1, 2, 3] : List Nat).take 8 ≠ ARTNET_HEADER ∨ ([1, 2, 3] : List Nat).length < 18) ∧
      emittedPacket (handleMessage [1, 2, 3]) = none) ∧
    (readUInt16BE dmxMsgBadVersion 10 < 14 ∧
      parseDMXPacket dmxMsgBadVersion = none ∧
      emittedPacket (handleMessage dmxMsgBadVersion) = none) :=
  ⟨⟨by decide, (malformed_datagram_dropped [1, 2, 3]).1 (by decide)⟩,
    by decide, ((malformed_datagram_dropped dmxMsgBadVersion).2 (by decide)).1,
    ((malformed_datagram_dropped dmxMsgBadVersion).2 (by decide)).2⟩

set_option maxRecDepth 2000 in
/-- Claim C5, counterexample: the 14-byte ArtPoll datagram produced by
sendArtPoll does carry opcode 0x2000 at offset 8, but the system's own
datagram decoder rejects any packet shorter than the 18-byte minimum, so
the ArtPoll bytes are dropped as too short instead of being decoded as
opcode 0x2000. -/
theorem artpoll_decode_cex :
    artPollPacket.length = 14 ∧ readUInt16LE artPollPacket 8 = 0x2000 ∧
    handleMessage artPollPacket = .tooShort := by
  refine ⟨by decide, by decide, by decide⟩

set_option maxRecDepth 4000 in
/-- Claim C5 (amended): the ArtPoll encoder emits opcode 0x2000 on the
wire, but feeding those 14 bytes to the system's datagram decoder drops
them below the 18-byte minimum (the amendment); the DMX round trip holds:
for every universe U in [0, 63999] and payload D of 2 to 512 bytes,
encoding a DMX packet for (U, D) and decoding the resulting bytes yields
universe U and first channel bytes equal to D. -/
theorem artnet_wire_roundtrip :
    (readUInt16LE artPollPacket 8 = 0x2000 ∧ handleMessage artPollPacket = .tooShort) ∧
    (∀ (univ seq : Nat) (D : List Nat), univ ≤ 63999 → 2 ≤ D.length → D.length ≤ 512 →
      (∀ v ∈ D, v < 256) →
      ∃ p, handleMessage (artNetTransmitterSend univ seq D) = .dmx p ∧
        p.univ = univ ∧ ∀ i, i < D.length → p.channels.getD i 0 = D.getD i 0) := by
  refine ⟨⟨by decide, by decide⟩, ?_⟩
  intro univ seq D hU hD2 hD512 hvals
  have hmin : min D.length TOTAL_CHANNELS = D.length := by
    unfold TOTAL_CHANNELS
    omega
  have hpack : artNetTransmitterSend univ seq D =
      (65 :: 114 :: 116 :: 45 :: 78 :: 101 :: 116 :: 0 :: 0 :: 80 :: 0 :: 14 ::
        (seq % 256) :: 0 :: (univ % 256) :: (univ / 256 % 256) ::
        ((min D.length TOTAL_CHANNELS) / 256 % 256) ::
        ((min D.length TOTAL_CHANNELS) % 256) :: []) ++
        (D.take (min D.length TOTAL_CHANNELS)).map (· % 256) := rfl
  have hdlen : ((D.take (min D.length TOTAL_CHANNELS)).map (· % 256)).length = D.length := by
    rw [List.length_map, List.length_take, hmin, min_self]
  have hplen : (artNetTransmitterSend univ seq D).length = 18 + D.length := by
    rw [hpack, List.length_append, hdlen]
    rfl
  have hver : readUInt16BE (artNetTransmitterSend univ seq D) 10 = 14 := by
    rw [hpack]
    rfl
  have hUread : readUInt16LE (artNetTransmitterSend univ seq D) 14 = univ := by
    have hr : readUInt16LE (artNetTransmitterSend univ seq D) 14 =
        univ % 256 + 256 * (univ / 256 % 256) := by
      rw [hpack]
      rfl
    rw [hr]
    omega
  have hLread : readUInt16BE (artNetTransmitterSend univ seq D) 16 = D.length := by
    have hr : readUInt16BE (artNetTransmitterSend univ seq D) 16 =
        256 * ((min D.length TOTAL_CHANNELS) / 256 % 256) +
          (min D.length TOTAL_CHANNELS) % 256 := by
      rw [hpack]
      rfl
    rw [hr, hmin]
    omega
  have hparse := parseDMX_valid (artNetTransmitterSend univ seq D) univ D.length
    (by omega) hUread hU hLread hD2 hD512 (by omega)
  refine ⟨⟨univ,
      (List.range TOTAL_CHANNELS).map fun i =>
        if i < D.length then (artNetTransmitterSend univ seq D).getD (18 + i) 0 else 0,
      (artNetTransmitterSend univ seq D).getD 12 0⟩, ?_, rfl, ?_⟩
  · unfold handleMessage
    rw [if_neg (by omega)]
    have hop : readUInt16LE (artNetTransmitterSend univ seq D) 8 = 0x5000 := by
      rw [hpack]
      rfl
    have hvh : validateHeader (artNetTransmitterSend univ seq D) = true := by
      rw [hpack]
      rfl
    rw [if_neg (by simp [hvh])]
    dsimp only
    rw [hop, if_pos rfl, hparse]
  · intro i hi
    have hi512 : i < TOTAL_CHANNELS := by
      unfold TOTAL_CHANNELS
      omega
    rw [getD_map_range _ _ i hi512, if_pos hi, hpack]
    have h18 : (65 :: 114 :: 116 :: 45 :: 78 :: 101 :: 116 :: 0 :: 0 :: 80 :: 0 :: 14 ::
        (seq % 256) :: 0 :: (univ % 256) :: (univ / 256 % 256) ::
        ((min D.length TOTAL_CHANNELS) / 256 % 256) ::
        ((min D.length TOTAL_CHANNELS) % 256) :: ([] : List Nat)).length = 18 := rfl
    rw [List.getD_append_right _ _ _ _ (by rw [h18]; omega), h18]
    have hsub : 18 + i - 18 = i := by omega
    rw [hsub]
    have hitake : i < (D.take (min D.length TOTAL_CHANNELS)).length := by
      rw [List.length_take, hmin, min_self]
      exact hi
    rw [List.getD_eq_getElem _ _ (by simpa using hitake),
      List.getD_eq_getElem _ _ hi]
    rw [List.getElem_map, List.getElem_take]
    exact Nat.mod_eq_of_lt (hvals _ (List.getElem_mem hi))

set_option maxRecDepth 100000 in
/-- Witness for artnet_wire_roundtrip: universe 7, payload [10, 20]. -/
theorem artnet_wire_roundtrip_witness :
    ((7 : Nat) ≤ 63999 ∧ 2 ≤ ([10, 20] : List Nat).length ∧
      ([10, 20] : List Nat).length ≤ 512 ∧ ∀ v ∈ ([10, 20] : List Nat), v < 256) ∧
    (∃ p, handleMessage (artNetTransmitterSend 7 0 [10, 20]) = .dmx p ∧
      p.univ = 7 ∧ ∀ i, i < ([10, 20] : List Nat).length →
        p.channels.getD i 0 = ([10, 20] : List Nat).getD i 0) :=
  ⟨⟨by decide, by decide, by decide, by decide⟩,
    (artnet_wire_roundtrip).2 7 0 [10, 20] (by decide) (by decide) (by decide) (by decide)⟩

/-! ### Helper lemmas: the highest-priority scan -/

theorem findHighest_all_le (l : List (String × SACNSourceInfo)) :
    ∀ (p : Int) (k : Option String), (∀ e ∈ l, (e.2.priority : Int) ≤ p) →
    findHighest p k l = (p, k) := by
  induction l with
  | nil => intro p k _; rfl
  | cons x t ih =>
    intro p k hle
    have hx : (x.2.priority : Int) ≤ p := hle x (by simp)
    match x with
    | (kx, infx) =>
      simp only [findHighest]
      rw [if_neg (by simpa using hx)]
      exact ih p k (fun e he => hle e (by simp [he]))

theorem findHighest_argmax (l : List (String × SACNSourceInfo)) :
    ∀ (p : Int) (k : Option String), (∃ e ∈ l, p < (e.2.priority : Int)) →
    ∃ i, ∃ h : i < l.length,
      findHighest p k l = (((l.get ⟨i, h⟩).2.priority : Int), some (l.get ⟨i, h⟩).1) ∧
      p < ((l.get ⟨i, h⟩).2.priority : Int) ∧
      (∀ j (hj : j < l.length),
        ((l.get ⟨j, hj⟩).2.priority : Int) ≤ ((l.get ⟨i, h⟩).2.priority : Int)) ∧
      (∀ j (hj : j < l.length), j < i →
        ((l.get ⟨j, hj⟩).2.priority : Int) < ((l.get ⟨i, h⟩).2.priority : Int)) := by
  induction l with
  | nil =>
    intro p k hex
    simp at hex
  | cons x t ih =>
    intro p k hex
    match x with
    | (kx, infx) =>
      simp only [findHighest]
      by_cases hpx : p < (infx.priority : Int)
      · rw [if_pos hpx]
        by_cases hext : ∃ e ∈ t, (infx.priority : Int) < (e.2.priority : Int)
        · obtain ⟨i, hi, heq, hgt, hub, hstrict⟩ := ih infx.priority (some kx) hext
          refine ⟨i + 1, by simpa using Nat.succ_lt_succ hi, ?_, ?_, ?_, ?_⟩
          · simpa using heq
          · simpa using lt_trans hpx hgt
          · intro j hj
            match j with
            | 0 => simpa using le_of_lt hgt
            | j + 1 => simpa using hub j (by simpa using Nat.lt_of_succ_lt_succ hj)
          · intro j hj hji
            match j with
            | 0 => simpa using hgt
            | j + 1 =>
              simpa using hstrict j (by simpa using Nat.lt_of_succ_lt_succ hj)
                (Nat.lt_of_succ_lt_succ hji)
        · push_neg at hext
          rw [findHighest_all_le t infx.priority (some kx) hext]
          refine ⟨0, by simp, by simp, by simpa using hpx, ?_, ?_⟩
          · intro j hj
            match j with
            | 0 => simp
            | j + 1 =>
              have hmem : t.get ⟨j, by simpa using Nat.lt_of_succ_lt_succ hj⟩ ∈ t :=
                List.get_mem t _ _
              simpa using hext _ hmem
          · intro j hj hji
            omega
      · rw [if_neg hpx]
        have hext : ∃ e ∈ t, p < (e.2.priority : Int) := by
          obtain ⟨e, he, hpe⟩ := hex
          rcases List.mem_cons.mp he with heq | hem
          · rw [heq] at hpe
            exact absurd hpe hpx
          · exact ⟨e, hem, hpe⟩
        obtain ⟨i, hi, heq, hgt, hub, hstrict⟩ := ih p k hext
        refine ⟨i + 1, by simpa using Nat.succ_lt_succ hi, ?_, ?_, ?_, ?_⟩
        · simpa using heq
        · simpa using hgt
        · intro j hj
          match j with
          | 0 =>
            have : (infx.priority : Int) ≤ p := not_lt.mp hpx
            simpa using le_trans this (le_of_lt hgt)
          | j + 1 => simpa using hub j (by simpa using Nat.lt_of_succ_lt_succ hj)
        · intro j hj hji
          match j with
          | 0 =>
            have : (infx.priority : Int) ≤ p := not_lt.mp hpx
            simpa using lt_of_le_of_lt this hgt
          | j + 1 =>
            simpa using hstrict j (by simpa using Nat.lt_of_succ_lt_succ hj)
              (Nat.lt_of_succ_lt_succ hji)

/-! ### Helper lemmas: source table bookkeeping -/

theorem mapSet_keys (l : List (String × SACNSourceInfo)) (k : String) (v : SACNSourceInfo) :
    (mapSet l k v).map Prod.fst =
      if l.any (fun e => e.1 = k) then l.map Prod.fst else l.map Prod.fst ++ [k] := by
  unfold mapSet
  split
  · rw [List.map_map]
    apply List.map_congr_left
    intro e _
    by_cases he : e.1 = k
    · simp [he]
    · simp [he]
  · simp

theorem mapSet_nodup (l : List (String × SACNSourceInfo)) (k : String) (v : SACNSourceInfo)
    (hnd : (l.map Prod.fst).Nodup) : ((mapSet l k v).map Prod.fst).Nodup := by
  rw [mapSet_keys]
  split
  · exact hnd
  · next hany =>
    rw [List.nodup_append]
    refine ⟨hnd, List.nodup_singleton k, ?_⟩
    intro a ha hb
    rw [List.mem_singleton] at hb
    subst hb
    rw [List.mem_map] at ha
    obtain ⟨e, he, hfst⟩ := ha
    rw [List.any_eq_true] at hany
    push_neg at hany
    exact hany e he (by simp [hfst])

theorem mapSet_ne_nil (l : List (String × SACNSourceInfo)) (k : String) (v : SACNSourceInfo) :
    mapSet l k v ≠ [] := by
  unfold mapSet
  split
  · next hany =>
    rw [List.any_eq_true] at hany
    obtain ⟨e, he, _⟩ := hany
    intro hmap
    rw [List.map_eq_nil_iff] at hmap
    rw [hmap] at he
    simp at he
  · simp

theorem flags_after (S : List (String × SACNSourceInfo))
    (hnd : (S.map Prod.fst).Nodup) (hne : S ≠ []) :
    ∃ i, ∃ hi : i < S.length,
      (findHighest (-1) none S).2 = some ((S.get ⟨i, hi⟩).1) ∧
      (∀ j (hj : j < S.length),
        (S.get ⟨j, hj⟩).2.priority ≤ (S.get ⟨i, hi⟩).2.priority) ∧
      activeAtMostOne
        (S.map fun e => (e.1, { e.2 with
          isActive := (findHighest (-1) none S).2 == some e.1 })) ∧
      activeIsMax
        (S.map fun e => (e.1, { e.2 with
          isActive := (findHighest (-1) none S).2 == some e.1 })) := by
  have hex : ∃ e ∈ S, (-1 : Int) < (e.2.priority : Int) := by
    match S with
    | x :: t => exact ⟨x, by simp, by omega⟩
  obtain ⟨i, hi, heq, _, hub, _⟩ := findHighest_argmax S (-1) none hex
  have hk : (findHighest (-1) none S).2 = some ((S.get ⟨i, hi⟩).1) :=
    congrArg Prod.snd heq
  have hubn : ∀ j (hj : j < S.length),
      (S.get ⟨j, hj⟩).2.priority ≤ (S.get ⟨i, hi⟩).2.priority := by
    intro j hj
    exact_mod_cast hub j hj
  have hkey : ∀ j (hj : j < S.length),
      (findHighest (-1) none S).2 = some ((S.get ⟨j, hj⟩).1) → j = i := by
    intro j hj hkj
    have hsome : some ((S.get ⟨i, hi⟩).1) = some ((S.get ⟨j, hj⟩).1) := hk.symm.trans hkj
    have hfst : (S.get ⟨i, hi⟩).1 = (S.get ⟨j, hj⟩).1 := Option.some_inj.mp hsome
    have hjm : j < (S.map Prod.fst).length := by simpa using hj
    have him : i < (S.map Prod.fst).length := by simpa using hi
    have hm : (S.map Prod.fst).get ⟨j, hjm⟩ = (S.map Prod.fst).get ⟨i, him⟩ := by
      rw [List.get_eq_getElem, List.get_eq_getElem, List.getElem_map, List.getElem_map]
      rw [List.get_eq_getElem, List.get_eq_getElem] at hfst
      exact hfst.symm
    rw [List.get_eq_getElem, List.get_eq_getElem] at hm
    exact hnd.getElem_inj_iff.mp hm
  refine ⟨i, hi, hk, hubn, ?_, ?_⟩
  · intro j1 h1 j2 h2 ha1 ha2
    rw [List.get_eq_getElem, List.getElem_map] at ha1 ha2
    dsimp only at ha1 ha2
    rw [beq_iff_eq] at ha1 ha2
    have hj1 : j1 < S.length := by simpa using h1
    have hj2 : j2 < S.length := by simpa using h2
    have e1 : j1 = i := hkey j1 hj1 (by rw [List.get_eq_getElem]; exact ha1)
    have e2 : j2 = i := hkey j2 hj2 (by rw [List.get_eq_getElem]; exact ha2)
    rw [e1, e2]
  · intro j1 h1 ha1 j2 h2
    rw [List.get_eq_getElem, List.getElem_map] at ha1
    dsimp only at ha1
    rw [beq_iff_eq] at ha1
    have hj1 : j1 < S.length := by simpa using h1
    have hj2 : j2 < S.length := by simpa using h2
    have e1 : j1 = i := hkey j1 hj1 (by rw [List.get_eq_getElem]; exact ha1)
    subst e1
    simp only [List.get_eq_getElem, List.getElem_map]
    have hle := hubn j2 hj2
    rw [List.get_eq_getElem, List.get_eq_getElem] at hle
    exact hle

theorem mapSet_exists_pos (l : List (String × SACNSourceInfo)) (k : String)
    (v : SACNSourceInfo) : ∃ e ∈ mapSet l k v, (-1 : Int) < (e.2.priority : Int) := by
  have hne := mapSet_ne_nil l k v
  match hS : mapSet l k v with
  | [] => exact absurd hS hne
  | x :: t => exact ⟨x, by simp, by omega⟩

/-- Claim C2, counterexample: the claim asserts that if source A is
active and source B later sends with priority equal to A's, A remains the
active source.  Here source b is tracked first at priority 50, then a
arrives at priority 100 and becomes active; when b then re-sends at
priority 100 - merely equal to the active priority, with no strictly
higher priority appearing and nothing removed - the strict-greater scan
over Map insertion order settles on b, the earlier-inserted entry: active
status flips from a to b, refuting the claim. -/
theorem sacn_tie_recency_cex :
    ((updateSourceTracking (updateSourceTracking
        (updateSourceTracking ⟨[], none⟩ "b" 50 0).1 "a" 100 1).1 "a" 100 2).1).activeSource
      = some "a" ∧
    ((updateSourceTracking (updateSourceTracking (updateSourceTracking
        (updateSourceTracking ⟨[], none⟩ "b" 50 0).1 "a" 100 1).1 "a" 100 2).1
        "b" 100 3).1).activeSource = some "b" ∧
    some "b" ≠ some "a" := by
  refine ⟨by decide, by decide, by decide⟩

/-- Claim C2 (amended): after every processed packet the active source is
the earliest-inserted tracked source among those with the numerically
greatest priority - the scan uses a strict comparison over Map insertion
order, so ties are broken by insertion order, not by who most recently
reached the priority level.  Consequently a source tracked after the
active one cannot take active status by matching its priority, but a
source tracked before it can (the amendment). -/
theorem sacn_active_first_argmax (st : SACNState) (key : String) (pri now : Nat) :
    ∃ i, ∃ hi : i < ((updateSourceTracking st key pri now).1).sources.length,
      ((updateSourceTracking st key pri now).1).activeSource =
        some ((((updateSourceTracking st key pri now).1).sources.get ⟨i, hi⟩).1) ∧
      (∀ j (hj : j < ((updateSourceTracking st key pri now).1).sources.length),
        ((((updateSourceTracking st key pri now).1).sources.get ⟨j, hj⟩).2.priority) ≤
          (((updateSourceTracking st key pri now).1).sources.get ⟨i, hi⟩).2.priority) ∧
      (∀ j (hj : j < ((updateSourceTracking st key pri now).1).sources.length), j < i →
        ((((updateSourceTracking st key pri now).1).sources.get ⟨j, hj⟩).2.priority) <
          (((updateSourceTracking st key pri now).1).sources.get ⟨i, hi⟩).2.priority) := by
  obtain ⟨i, hi, heq, _, hub, hstrict⟩ :=
    findHighest_argmax (mapSet st.sources key ⟨pri, now, false⟩) (-1) none
      (mapSet_exists_pos st.sources key ⟨pri, now, false⟩)
  have hk : (findHighest (-1) none (mapSet st.sources key ⟨pri, now, false⟩)).2 =
      some (((mapSet st.sources key ⟨pri, now, false⟩).get ⟨i, hi⟩).1) :=
    congrArg Prod.snd heq
  have hsrc : ((updateSourceTracking st key pri now).1).sources =
      (mapSet st.sources key ⟨pri, now, false⟩).map fun e => (e.1, { e.2 with
        isActive := (findHighest (-1) none (mapSet st.sources key ⟨pri, now, false⟩)).2
          == some e.1 }) := rfl
  have hasrc : ((updateSourceTracking st key pri now).1).activeSource =
      (findHighest (-1) none (mapSet st.sources key ⟨pri, now, false⟩)).2 := rfl
  have hlen : ((updateSourceTracking st key pri now).1).sources.length =
      (mapSet st.sources key ⟨pri, now, false⟩).length := by
    rw [hsrc, List.length_map]
  refine ⟨i, by omega, ?_, ?_, ?_⟩
  · rw [hasrc, hk]
    congr 1
    have hikey : (((updateSourceTracking st key pri now).1).sources.get
        ⟨i, by omega⟩).1 = ((mapSet st.sources key ⟨pri, now, false⟩).get ⟨i, hi⟩).1 := by
      simp only [List.get_eq_getElem, hsrc, List.getElem_map]
    rw [hikey]
  · intro j hj
    have hjS : j < (mapSet st.sources key ⟨pri, now, false⟩).length := by omega
    have := hub j hjS
    have hcast : ((mapSet st.sources key ⟨pri, now, false⟩).get ⟨j, hjS⟩).2.priority ≤
        ((mapSet st.sources key ⟨pri, now, false⟩).get ⟨i, hi⟩).2.priority := by
      exact_mod_cast this
    simp only [hsrc, List.get_eq_getElem, List.getElem_map]
    simp only [List.get_eq_getElem] at hcast
    exact hcast
  · intro j hj hji
    have hjS : j < (mapSet st.sources key ⟨pri, now, false⟩).length := by omega
    have := hstrict j hjS hji
    have hcast : ((mapSet st.sources key ⟨pri, now, false⟩).get ⟨j, hjS⟩).2.priority <
        ((mapSet st.sources key ⟨pri, now, false⟩).get ⟨i, hi⟩).2.priority := by
      exact_mod_cast this
    simp only [hsrc, List.get_eq_getElem, List.getElem_map]
    simp only [List.get_eq_getElem] at hcast
    exact hcast

/-- Claim C9: after handling a packet the source table has at most one
entry flagged active, the active entry carries the numerically highest
priority among tracked sources, and the DMXPacket is emitted (the boolean
result of updateSourceTracking, on which handlePacket returns early when
false) exactly when the packet's source key equals the active source's
key; the cleanup sweep preserves the at-most-one-active and
active-is-maximal invariant. -/
theorem sacn_active_invariant :
    (∀ (st : SACNState) (key : String) (pri now : Nat),
      (st.sources.map Prod.fst).Nodup →
      activeAtMostOne ((updateSourceTracking st key pri now).1).sources ∧
      activeIsMax ((updateSourceTracking st key pri now).1).sources ∧
      ((updateSourceTracking st key pri now).2 = true ↔
        ((updateSourceTracking st key pri now).1).activeSource = some key)) ∧
    (∀ (st : SACNState) (now : Nat), (st.sources.map Prod.fst).Nodup →
      activeAtMostOne st.sources → activeIsMax st.sources →
      activeAtMostOne (cleanupStaleSources st now).sources ∧
      activeIsMax (cleanupStaleSources st now).sources) := by
  constructor
  · intro st key pri now hnd
    have hndS := mapSet_nodup st.sources key ⟨pri, now, false⟩ hnd
    have hneS := mapSet_ne_nil st.sources key ⟨pri, now, false⟩
    obtain ⟨i, hi, hk, hub, hone, hmax⟩ :=
      flags_after (mapSet st.sources key ⟨pri, now, false⟩) hndS hneS
    refine ⟨hone, hmax, ?_⟩
    have h2 : (updateSourceTracking st key pri now).2 =
        ((findHighest (-1) none (mapSet st.sources key ⟨pri, now, false⟩)).2
          == some key) := rfl
    have hasrc : ((updateSourceTracking st key pri now).1).activeSource =
        (findHighest (-1) none (mapSet st.sources key ⟨pri, now, false⟩)).2 := rfl
    rw [h2, hasrc, beq_iff_eq]
  · intro st now hnd hone hmax
    unfold cleanupStaleSources
    by_cases hlen : (st.sources.filter fun e => ¬ (5000 < now - e.2.lastSeen)).length
        = st.sources.length
    · rw [if_pos hlen]
      exact ⟨hone, hmax⟩
    · rw [if_neg hlen]
      by_cases hemp : (st.sources.filter fun e => ¬ (5000 < now - e.2.lastSeen)).isEmpty
      · rw [if_pos hemp]
        constructor
        · intro j1 h1
          simp at h1
        · intro j1 h1
          simp at h1
      · rw [if_neg hemp]
        have hsub : (st.sources.filter fun e => ¬ (5000 < now - e.2.lastSeen)).Sublist
            st.sources := List.filter_sublist st.sources
        have hndk : ((st.sources.filter fun e => ¬ (5000 < now - e.2.lastSeen)).map
            Prod.fst).Nodup := List.Nodup.sublist (hsub.map Prod.fst) hnd
        have hnek : (st.sources.filter fun e => ¬ (5000 < now - e.2.lastSeen)) ≠ [] := by
          simpa [List.isEmpty_iff] using hemp
        obtain ⟨i, hi, hk, hub, hone2, hmax2⟩ :=
          flags_after (st.sources.filter fun e => ¬ (5000 < now - e.2.lastSeen)) hndk hnek
        exact ⟨hone2, hmax2⟩

/-- Witness for sacn_active_invariant: a single source arriving at an
empty table, then a cleanup sweep at t = 6000. -/
theorem sacn_active_invariant_witness :
    activeAtMostOne ((updateSourceTracking ⟨[], none⟩ "a" 100 0).1).sources ∧
    activeIsMax ((updateSourceTracking ⟨[], none⟩ "a" 100 0).1).sources ∧
    ((updateSourceTracking ⟨[], none⟩ "a" 100 0).2 = true ↔
      ((updateSourceTracking ⟨[], none⟩ "a" 100 0).1).activeSource = some "a") ∧
    activeAtMostOne
      (cleanupStaleSources (updateSourceTracking ⟨[], none⟩ "a" 100 0).1 6000).sources ∧
    activeIsMax
      (cleanupStaleSources (updateSourceTracking ⟨[], none⟩ "a" 100 0).1 6000).sources := by
  have h1 := (sacn_active_invariant).1 ⟨[], none⟩ "a" 100 0 (by decide)
  have h2 := (sacn_active_invariant).2 (updateSourceTracking ⟨[], none⟩ "a" 100 0).1 6000
    (by decide) h1.1 h1.2.1
  exact ⟨h1.1, h1.2.1, h1.2.2, h2.1, h2.2⟩

set_option maxRecDepth 400000 in
/-- Claim C4, code-bug evidence, evaluated at concrete recordings.
First part: buildFrameIndex records each snapshot at the cumulative
position excluding the snapshot's own delta time, so seeking
seekExampleStream (snapshot at 0, delta at 1000, snapshot at 2000 indexed
at position 1000) to T = 1500 applies the 2000 ms snapshot: the seek
result has channel 0 = 3 while live playback at 1500 shows channel 0 = 2,
refuting byte-identical restoration.  Second part: the replay loop backs
up only currentPosition when a frame overshoots the target, leaving
frameOffset past the frame, so after seeking seekExampleStream2 to
T = 500 the offset sits at the end of the stream (520) instead of just
before the unapplied delta frame (byte 514): playback resumes after the
frame, not just before it. -/
theorem seek_diverges_from_live :
    ((playerSeek seekExampleStream 2000 1500).channels.getD 0 0 = 3 ∧
      (livePlayChannelsAt seekExampleStream 1500).getD 0 0 = 2 ∧
      (playerSeek seekExampleStream 2000 1500).channels ≠
        livePlayChannelsAt seekExampleStream 1500) ∧
    ((playerSeek seekExampleStream2 1000 500).offset = 520 ∧
      seekExampleStream2.length = 520 ∧
      (playerSeek seekExampleStream2 1000 500).channels.getD 0 0 = 1 ∧
      (514 : Nat) ≠ 520) := by
  refine ⟨⟨by decide, by decide, by decide⟩, by decide, by decide, by decide, by decide⟩

theorem seekLoop_le (fd : List Nat) : ∀ (fuel offset position target : Nat)
    (channels : List Nat), position ≤ target →
    (seekLoop fd fuel offset position target channels).position ≤ target := by
  intro fuel
  induction fuel with
  | zero => intro o p t ch h; exact h
  | succ fuel ih =>
    intro o p t ch h
    simp only [seekLoop]
    split
    · match hrf : readFrameAt fd o with
      | none => exact h
      | some (f, o2) =>
        dsimp only
        split
        · next hover =>
          simpa using h
        · next hover =>
          exact ih o2 (p + f.deltaTime) t (applyFrame ch f) (by omega)
    · exact h

/-- Claim C10: seek clamps its argument into [0, duration] before
replaying, so the playback position after any seek - including negative
arguments and targets past the end - lies in [0, duration]; in
particular seekBackward from a position smaller than the step behaves
exactly as seek(0). -/
theorem seek_clamps_position (frameData : List Nat) (duration : Nat) (positionMs : Int) :
    (playerSeek frameData duration positionMs).position ≤ duration ∧
    (∀ pos ms : Nat, pos < ms →
      playerSeekBackward frameData duration pos ms = playerSeek frameData duration 0) := by
  constructor
  · have htgt : (max 0 (min positionMs (duration : Int))).toNat ≤ duration := by omega
    unfold playerSeek
    dsimp only
    split
    · next entry hfind =>
      have hpe : entry.2 ≤ (max 0 (min positionMs (duration : Int))).toNat := by
        have := List.find?_some hfind
        simpa using this
      split
      · exact le_trans (seekLoop_le frameData _ _ _ _ _ hpe) htgt
      · exact le_trans (seekLoop_le frameData _ _ _ _ _ hpe) htgt
    · exact le_trans (seekLoop_le frameData _ _ _ _ _ (Nat.zero_le _)) htgt
  · intro pos ms hlt
    unfold playerSeekBackward playerSeek
    have htgt : (max 0 (min ((pos : Int) - (ms : Int)) (duration : Int))).toNat =
        (max 0 (min (0 : Int) (duration : Int))).toNat := by omega
    rw [htgt]

/-- Witness for seek_clamps_position: the empty stream, duration 0,
seeking to -5, and seekBackward by 2 from position 1. -/
theorem seek_clamps_position_witness :
    (playerSeek [] 0 (-5)).position ≤ 0 ∧
    ((1 : Nat) < 2 ∧ playerSeekBackward [] 0 1 2 = playerSeek [] 0 0) :=
  ⟨(seek_clamps_position [] 0 (-5)).1,
    by decide, (seek_clamps_position [] 0 (-5)).2 1 2 (by decide)⟩

/-- Witness for sacn_active_first_argmax: a single source arriving at an
empty table. -/
theorem sacn_active_first_argmax_witness :
    ∃ i, ∃ hi : i < ((updateSourceTracking ⟨[], none⟩ "a" 100 0).1).sources.length,
      ((updateSourceTracking ⟨[], none⟩ "a" 100 0).1).activeSource =
        some ((((updateSourceTracking ⟨[], none⟩ "a" 100 0).1).sources.get ⟨i, hi⟩).1) ∧
      (∀ j (hj : j < ((updateSourceTracking ⟨[], none⟩ "a" 100 0).1).sources.length),
        ((((updateSourceTracking ⟨[], none⟩ "a" 100 0).1).sources.get ⟨j, hj⟩).2.priority) ≤
          (((updateSourceTracking ⟨[], none⟩ "a" 100 0).1).sources.get ⟨i, hi⟩).2.priority) ∧
      (∀ j (hj : j < ((updateSourceTracking ⟨[], none⟩ "a" 100 0).1).sources.length), j < i →
        ((((updateSourceTracking ⟨[], none⟩ "a" 100 0).1).sources.get ⟨j, hj⟩).2.priority) <
          (((updateSourceTracking ⟨[], none⟩ "a" 100 0).1).sources.get ⟨i, hi⟩).2.priority) :=
  sacn_active_first_argmax ⟨[], none⟩ "a" 100 0
